import Mathlib

/-!
Verification of the RSC1 toolchain sources (`src/sasm`, `src/rscas`,
`src/rscvm`, `src/svirt`) against its natural-language specification.

The assembler (`sasm`) is embedded faithfully: strings are Lean `String`s
(the assembler rejects non-ASCII input, for which Lean chars and Rust bytes
coincide), `u8`/`u16`/`u64` values are `Nat`s with explicit `% 2^w`
truncation exactly where the Rust code casts, and every `critical!` exit
is an `Option.none`.  The legacy VM (`rscvm`) is embedded with `none`
standing for a host panic.  The 16-bit VM core (the `svirt` library) is
not part of the sources, only its CLI caller is; where a claim concerns
it, a definition is modelled from the spec and marked as such.
-/

/-- Whitespace predicate used by the Rust `trim` calls on the (ASCII-checked)
assembler inputs: space, tab, carriage return, newline. -/
def isWS (c : Char) : Bool :=
  c = ' ' ∨ c = '\t' ∨ c = '\r' ∨ c = '\n'

/-- Rust `str::trim` on ASCII text: drop whitespace from both ends. -/
def strTrim (s : String) : String :=
  ⟨((s.data.dropWhile isWS).reverse.dropWhile isWS).reverse⟩

/-- Rust `str::split(sep)` on ASCII text (always yields at least one piece;
an empty input yields one empty piece). -/
def splitChar (sep : Char) : List Char → List (List Char)
  | [] => [[]]
  | c :: rest =>
    let r := splitChar sep rest
    if c = sep then [] :: r
    else
      match r with
      | [] => [[c]]
      | h :: t => (c :: h) :: t

/-- Rust `str::split_once(sep)`: split at the first occurrence only. -/
def splitOnceChar (sep : Char) : List Char → Option (List Char × List Char)
  | [] => none
  | c :: rest =>
    if c = sep then some ([], rest)
    else (splitOnceChar sep rest).map (fun p => (c :: p.1, p.2))

/-- `str::split` lifted to `String`. -/
def strSplit (sep : Char) (s : String) : List String :=
  (splitChar sep s.data).map (fun l => ⟨l⟩)

/-- Rust `str::trim_start_matches("0x")`: repeatedly strip a leading `0x`. -/
def trim0xL : List Char → List Char
  | '0' :: 'x' :: rest => trim0xL rest
  | l => l

/-- `trim_start_matches("0x")` lifted to `String`. -/
def trim_0x (s : String) : String := ⟨trim0xL s.data⟩

/-- Rust `char::to_digit(radix)`. -/
def digitVal (radix : Nat) (c : Char) : Option Nat :=
  let v :=
    if '0' ≤ c ∧ c ≤ '9' then some (c.toNat - 48)
    else if 'a' ≤ c ∧ c ≤ 'z' then some (c.toNat - 87)
    else if 'A' ≤ c ∧ c ≤ 'Z' then some (c.toNat - 55)
    else none
  match v with
  | some d => if d < radix then some d else none
  | none => none

/-- Digit-accumulation loop of Rust `from_str_radix` for an unsigned type with
`bound = 2^bits`: fails on a non-digit and on overflow of the target type. -/
def parseDigits (radix bound : Nat) : List Char → Nat → Option Nat
  | [], acc => some acc
  | c :: rest, acc =>
    match digitVal radix c with
    | none => none
    | some d =>
      if acc * radix + d < bound then parseDigits radix bound rest (acc * radix + d)
      else none

/-- Rust `str::parse::<uN>()` / `uN::from_str_radix(s, radix)` where
`bound = 2^N`: an optional leading `+`, then one or more digits, value
within the type's range.  A leading `-` is not a digit and fails. -/
def rustParseNat (radix bound : Nat) (s : String) : Option Nat :=
  match s.data with
  | [] => none
  | '+' :: rest => if rest.isEmpty then none else parseDigits radix bound rest 0
  | l => parseDigits radix bound l 0

/-- UTF-8 bytes of an ASCII string (the assembler rejects non-ASCII input,
so `Char.toNat` agrees with the Rust byte values). -/
def strBytes (s : String) : List Nat := s.data.map Char.toNat

/-- Inner loop of `calculate_label_id` (both `sasm/src/lib.rs` and
`rscas/src/lib.rs`): pack the 8 bytes at positions `j..j+8` (zero when past
the end) into a 64-bit little-endian word. -/
def maskAt (bytes : List Nat) (j : Nat) : Nat :=
  (List.range 8).foldl
    (fun mask i =>
      let index := i + j
      let value := if index < bytes.length then bytes.getD index 0 else 0
      mask ||| (value <<< (i * 8)))
    0

/-- `calculate_label_id` from `src/sasm/src/lib.rs`: XOR-fold of the 8-byte
group masks, the outer loop stepping `j` by 8 over `0..len`. -/
def calculate_label_id (bytes : List Nat) : Nat :=
  (List.range ((bytes.length + 7) / 8)).foldl
    (fun hash k => hash ^^^ maskAt bytes (8 * k)) 0

/-- `calculate_label_id` from `src/rscas/src/lib.rs` (textually the same
algorithm, kept as a separate definition because the claim compares the
two variants). -/
def rscas_calculate_label_id (bytes : List Nat) : Nat :=
  (List.range ((bytes.length + 7) / 8)).foldl
    (fun hash k => hash ^^^ maskAt bytes (8 * k)) 0

/-- Label id of a string, as the assembler computes it. -/
def labelIdStr (s : String) : Nat := calculate_label_id (strBytes s)

/-- The spec's packing of one at-most-8-byte group: zero-pad the tail to
8 bytes and read them as a little-endian word. -/
def packLE (group : List Nat) : Nat :=
  (group ++ List.replicate (8 - group.length) 0).foldr (fun b w => (w <<< 8) ||| b) 0

/-- The spec's `label_id` (§4.2): split the byte string into 8-byte groups,
zero-padded at the tail, pack each little-endian, XOR-fold. -/
def spec_label_id : List Nat → Nat
  | [] => 0
  | b0 :: b1 :: b2 :: b3 :: b4 :: b5 :: b6 :: b7 :: rest =>
    packLE [b0, b1, b2, b3, b4, b5, b6, b7] ^^^ spec_label_id rest
  | l => packLE l

/-- The `Token` enum of `src/sasm/src/lib.rs`.  Register fields are `u16`,
immediates `u8`, label ids `u64`, addresses `u16`; all carried as `Nat`. -/
inductive Token where
  | LABEL (id : Nat) (address : Nat)
  | SHORT (value : Nat) (isLabelRef : Bool)
  | ADDR (address : Nat)
  | NOP
  | AND (x y : Nat)
  | NOT (x : Nat)
  | ADD (x y : Nat)
  | SUB (x y : Nat)
  | INC (x : Nat)
  | DEC (x : Nat)
  | LDB (x y : Nat)
  | LDW (x y : Nat)
  | MOV (x y : Nat)
  | LDI (x : Nat) (nn : Nat)
  | STB (x y : Nat)
  | STW (x y : Nat)
  | JMP (x : Nat)
  | JNZ (x y : Nat)
  | SHR (x : Nat) (n : Nat)
  | SHL (x : Nat) (n : Nat)
  | TEST (n : Nat)
  | SETF (n : Nat)
  | CLRF (n : Nat)
  | PUSH (x : Nat)
  | POP (x : Nat)
  | LDL (x : Nat) (k : Nat)
  | CALL (x : Nat) (a : Nat)
  | CALLF (x y : Nat) (a : Nat)
  | RET (x : Nat)
deriving DecidableEq, Repr

/-- The mutable fields of `Job` that the tokenizer uses: the entry label,
the trampoline flag and the pass-1 cursor `address` (a `u64`). -/
structure JobState where
  entry : String
  trampoline : Bool
  address : Nat
deriving DecidableEq, Repr

/-- `reg_name_to_num` from `src/sasm/src/lib.rs`: `sp → 0x08`; otherwise
parse the second character as a decimal number, `r<d> → d`,
`c<d> → d + 0x09`; anything else is fatal (`none`). -/
def reg_name_to_num (name : String) : Option Nat :=
  let name := strTrim name
  if name = "sp" then some 8
  else
    match name.data.get? 1 with
    | none => none
    | some d =>
      match rustParseNat 10 65536 ⟨[d]⟩ with
      | none => none
      | some num =>
        if name.data.head? = some 'r' then some num
        else if name.data.head? = some 'c' then some (num + 9)
        else none

/-- The arity check of `gen_instruction_token`: for zero-argument
instructions the single split piece must be empty; otherwise the number of
pieces must equal the arity. -/
def args_len_ok (len : Nat) (args : List String) : Bool :=
  if len = 0 then args.length ≤ 1 ∧ (args.getD 0 "").isEmpty
  else args.length = len

/-- `Job::gen_pseudo_instruction_token`: called after the instruction
cursor bump of 2; each pseudo instruction adds its remaining size.
The `ldl` value mirrors the source exactly: it first tries
`arguments[0].parse::<u16>()` (the register name), then hex on the
`0x`-stripped `arguments[1]`, then the label id of that stripped string. -/
def gen_pseudo_instruction_token (st : JobState) (instruction : String)
    (args : List String) : Option (JobState × Token) :=
  match instruction with
  | "push" =>
    if args.length = 1 then
      match reg_name_to_num (args.getD 0 "") with
      | some x => some ({ st with address := st.address + (2 * 3 - 2) }, .PUSH x)
      | none => none
    else none
  | "pop" =>
    if args.length = 1 then
      match reg_name_to_num (args.getD 0 "") with
      | some x => some ({ st with address := st.address + (2 * 3 - 2) }, .POP x)
      | none => none
    else none
  | "ldl" =>
    if args.length = 2 then
      let value :=
        match rustParseNat 10 65536 (args.getD 0 "") with
        | some v => v
        | none =>
          let trimmed := trim_0x (args.getD 1 "")
          match rustParseNat 16 65536 trimmed with
          | some v => v
          | none => labelIdStr trimmed
      match reg_name_to_num (args.getD 0 "") with
      | some x => some ({ st with address := st.address + (2 * 3 - 2) }, .LDL x value)
      | none => none
    else none
  | "call" =>
    if args.length = 1 then
      let st' := { st with address := st.address + (2 * 17 - 2) }
      match reg_name_to_num (args.getD 0 "") with
      | some x => some (st', .CALL x (st'.address % 65536))
      | none => none
    else none
  | "callf" =>
    if args.length = 2 then
      let st' := { st with address := st.address + (2 * 7 - 2) }
      match reg_name_to_num (args.getD 0 ""), reg_name_to_num (args.getD 1 "") with
      | some x, some y => some (st', .CALLF x y (st'.address % 65536))
      | _, _ => none
    else none
  | "ret" =>
    if args.length = 1 then
      match reg_name_to_num (args.getD 0 "") with
      | some x => some ({ st with address := st.address + (2 * 4 - 2) }, .RET x)
      | none => none
    else none
  | _ => none

/-- Result of the native-mnemonic arms of `Job::gen_instruction_token`:
either a token, a fatal argument error, or fall-through to
`gen_pseudo_instruction_token` (the `_` arm). -/
inductive NativeOut where
  | tok (t : Token)
  | fail
  | pseudo
deriving DecidableEq, Repr

/-- The mnemonic dispatch of `Job::gen_instruction_token` (everything after
the shared `self.address += 2`): arity check, register / immediate parsing,
token construction.  Immediates go through `parse_int_from_string`
(`str::parse`, so decimal only). -/
def native_token (instruction : String) (args : List String) : NativeOut :=
  match instruction with
  | "nop" => if args_len_ok 0 args then .tok .NOP else .fail
  | "and" =>
    if args_len_ok 2 args then
      match reg_name_to_num (args.getD 0 ""), reg_name_to_num (args.getD 1 "") with
      | some x, some y => .tok (.AND x y)
      | _, _ => .fail
    else .fail
  | "not" =>
    if args_len_ok 1 args then
      match reg_name_to_num (args.getD 0 "") with
      | some x => .tok (.NOT x)
      | none => .fail
    else .fail
  | "add" =>
    if args_len_ok 2 args then
      match reg_name_to_num (args.getD 0 ""), reg_name_to_num (args.getD 1 "") with
      | some x, some y => .tok (.ADD x y)
      | _, _ => .fail
    else .fail
  | "sub" =>
    if args_len_ok 2 args then
      match reg_name_to_num (args.getD 0 ""), reg_name_to_num (args.getD 1 "") with
      | some x, some y => .tok (.SUB x y)
      | _, _ => .fail
    else .fail
  | "inc" =>
    if args_len_ok 1 args then
      match reg_name_to_num (args.getD 0 "") with
      | some x => .tok (.INC x)
      | none => .fail
    else .fail
  | "dec" =>
    if args_len_ok 1 args then
      match reg_name_to_num (args.getD 0 "") with
      | some x => .tok (.DEC x)
      | none => .fail
    else .fail
  | "ldb" =>
    if args_len_ok 2 args then
      match reg_name_to_num (args.getD 0 ""), reg_name_to_num (args.getD 1 "") with
      | some x, some y => .tok (.LDB x y)
      | _, _ => .fail
    else .fail
  | "ldw" =>
    if args_len_ok 2 args then
      match reg_name_to_num (args.getD 0 ""), reg_name_to_num (args.getD 1 "") with
      | some x, some y => .tok (.LDW x y)
      | _, _ => .fail
    else .fail
  | "mov" =>
    if args_len_ok 2 args then
      match reg_name_to_num (args.getD 0 ""), reg_name_to_num (args.getD 1 "") with
      | some x, some y => .tok (.MOV x y)
      | _, _ => .fail
    else .fail
  | "ldi" =>
    if args_len_ok 2 args then
      match reg_name_to_num (args.getD 0 ""), rustParseNat 10 256 (args.getD 1 "") with
      | some x, some nn => .tok (.LDI x nn)
      | _, _ => .fail
    else .fail
  | "stb" =>
    if args_len_ok 2 args then
      match reg_name_to_num (args.getD 0 ""), reg_name_to_num (args.getD 1 "") with
      | some x, some y => .tok (.STB x y)
      | _, _ => .fail
    else .fail
  | "stw" =>
    if args_len_ok 2 args then
      match reg_name_to_num (args.getD 0 ""), reg_name_to_num (args.getD 1 "") with
      | some x, some y => .tok (.STW x y)
      | _, _ => .fail
    else .fail
  | "jmp" =>
    if args_len_ok 1 args then
      match reg_name_to_num (args.getD 0 "") with
      | some x => .tok (.JMP x)
      | none => .fail
    else .fail
  | "jnz" =>
    if args_len_ok 2 args then
      match reg_name_to_num (args.getD 0 ""), reg_name_to_num (args.getD 1 "") with
      | some x, some y => .tok (.JNZ x y)
      | _, _ => .fail
    else .fail
  | "shr" =>
    if args_len_ok 2 args then
      match reg_name_to_num (args.getD 0 ""), rustParseNat 10 256 (args.getD 1 "") with
      | some x, some n => .tok (.SHR x n)
      | _, _ => .fail
    else .fail
  | "shl" =>
    if args_len_ok 2 args then
      match reg_name_to_num (args.getD 0 ""), rustParseNat 10 256 (args.getD 1 "") with
      | some x, some n => .tok (.SHL x n)
      | _, _ => .fail
    else .fail
  | "test" =>
    if args_len_ok 1 args then
      match rustParseNat 10 256 (args.getD 0 "") with
      | some n => .tok (.TEST n)
      | none => .fail
    else .fail
  | "setf" =>
    if args_len_ok 1 args then
      match rustParseNat 10 256 (args.getD 0 "") with
      | some n => .tok (.SETF n)
      | none => .fail
    else .fail
  | "clrf" =>
    if args_len_ok 1 args then
      match rustParseNat 10 256 (args.getD 0 "") with
      | some n => .tok (.CLRF n)
      | none => .fail
    else .fail
  | _ => .pseudo

/-- `Job::gen_instruction_token`: split the argument string on `,`,
advance the cursor by 2 (the source does this before the mnemonic match),
then dispatch. -/
def gen_instruction_token (st : JobState) (instruction arguments : String) :
    Option (JobState × Token) :=
  let args := strSplit ',' arguments
  let st2 : JobState := { st with address := st.address + 2 }
  match native_token instruction args with
  | .tok t => some (st2, t)
  | .fail => none
  | .pseudo => gen_pseudo_instruction_token st2 instruction args

/-- `Job::gen_directive_token`: `.short` tries decimal on the `0x`-stripped
argument first (the source's order), then hex, then falls back to a label
id; `.addr` tries decimal on the raw argument, then hex on the stripped
one, and requires an even in-range address. -/
def gen_directive_token (st : JobState) (head arguments : String) :
    Option (JobState × Token) :=
  if head.data.head? = some '.' then
    let directive : String := ⟨head.data.drop 1⟩
    let args := strSplit ',' arguments
    match directive with
    | "short" =>
      if args.length = 1 then
        let trimmed := trim_0x (args.getD 0 "")
        let sv : Nat × Bool :=
          match rustParseNat 10 65536 trimmed with
          | some v => (v, false)
          | none =>
            match rustParseNat 16 65536 trimmed with
            | some v => (v, false)
            | none => (labelIdStr trimmed, true)
        some ({ st with address := st.address + 2 }, .SHORT sv.1 sv.2)
      else none
    | "addr" =>
      if args.length = 1 then
        let av : Option Nat :=
          match rustParseNat 10 65536 (args.getD 0 "") with
          | some v => some v
          | none => rustParseNat 16 65536 (trim_0x (args.getD 0 ""))
        match av with
        | none => none
        | some address =>
          if address % 2 ≠ 0 then none
          else if address > 65535 then none
          else some ({ st with address := address }, .ADDR address)
      else none
    | _ => none
  else none

/-- `Job::gen_label_token`: strip the trailing `:`, apply the trampoline
rewind when the entry label is met at cursor exactly `TRAMPOLINE_SIZE`,
and record the (possibly rewound) cursor truncated to `u16`. -/
def gen_label_token (st : JobState) (line : String) : Option (JobState × Token) :=
  if line.data.getLast? = some ':' then
    let label : String := ⟨line.data.dropLast⟩
    let st :=
      if st.trampoline ∧ st.entry = label ∧ st.address = 8 then
        { st with trampoline := false, address := st.address - 8 }
      else st
    some (st, .LABEL (labelIdStr label) (st.address % 65536))
  else none

/-- `Job::gen_token`: split the line at the first space, delete the
remaining spaces from the tail, and classify as directive / label /
instruction. -/
def gen_token (st : JobState) (raw : String) : Option (JobState × Token) :=
  let line : String × String :=
    match splitOnceChar ' ' raw.data with
    | some p => (⟨p.1⟩, ⟨p.2.filter (fun c => ¬ c = ' ')⟩)
    | none => (raw, "")
  if line.1.data.head? = some '.' ∧ ¬ line.2.isEmpty then
    gen_directive_token st line.1 line.2
  else if line.1.data.getLast? = some ':' ∧ line.2.isEmpty then
    gen_label_token st line.1
  else
    gen_instruction_token st line.1 line.2

/-- The loop of `Job::tokenize`: for each line, first fail if the cursor
has reached `u16::MAX`, then generate the token. -/
def tokenize_lines (st : JobState) : List String → Option (JobState × List Token)
  | [] => some (st, [])
  | line :: rest =>
    if st.address ≥ 65535 then none
    else
      match gen_token st line with
      | none => none
      | some (st', tok) =>
        match tokenize_lines st' rest with
        | none => none
        | some (st'', toks) => some (st'', tok :: toks)

/-- `Job::tokenize` on the trimmed non-blank lines: run the loop from the
initial state (cursor 8 when the trampoline was requested, via
`Job::trampoline`), then prepend the `ldl r0,<entry>; jmp r0` trampoline
tokens when the flag is still set. -/
def tokenize (entry : String) (tramp : Bool) (lines : List String) :
    Option (JobState × List Token) :=
  let st0 : JobState := ⟨entry, tramp, if tramp then 8 else 0⟩
  match tokenize_lines st0 lines with
  | none => none
  | some (st, toks) =>
    some (st, if st.trampoline then .LDL 0 (labelIdStr entry) :: .JMP 0 :: toks else toks)

/-- `Job::get_lines` for a single source file: reject non-ASCII content,
split on newlines, drop blank lines, trim each kept line. -/
def get_lines (content : String) : Option (List String) :=
  if content.data.all (fun c => c.toNat < 128) then
    some ((strSplit '\n' content).filterMap
      (fun l => if (strTrim l).isEmpty then none else some (strTrim l)))
  else none

/-- The `Executable` buffer of `src/sasm/src/lib.rs`: a byte vector plus a
`u16` write cursor. -/
structure Executable where
  bytes : List Nat
  address : Nat
deriving DecidableEq, Repr

/-- `Executable::push_byte`: zero-pad when the cursor is past the end
(`bytes.len() as u16` is the truncated length), append when it is at the
end, otherwise remove-and-insert in place; the cursor then advances by one
with `u16` wraparound. -/
def Executable.push_byte (e : Executable) (b : Nat) : Executable :=
  let current := e.bytes.length % 65536
  let bytes :=
    if e.address > current then e.bytes ++ List.replicate (e.address - current) 0
    else e.bytes
  let current := if e.address > current then e.address else current
  let bytes :=
    if e.address = current then bytes ++ [b]
    else (bytes.eraseIdx e.address).insertIdx e.address b
  { bytes := bytes, address := (e.address + 1) % 65536 }

/-- `Executable::push_short`: low byte first, then high byte. -/
def Executable.push_short (e : Executable) (s : Nat) : Executable :=
  (e.push_byte (s &&& 0x00FF)).push_byte ((s &&& 0xFF00) >>> 8)

/-- A sequence of `push_short` calls, in order (how every emitter arm
writes its words). -/
def push_list (e : Executable) : List Nat → Executable
  | [] => e
  | w :: ws => push_list (e.push_short w) ws

/-- The empty executable (`Executable::new`). -/
def exec0 : Executable := ⟨[], 0⟩

/-- Number of output bytes each token stands for (0 for `Label`, and for
`Addr`, which moves the cursor instead of writing). -/
def emit_size : Token → Nat
  | .LABEL _ _ => 0
  | .ADDR _ => 0
  | .SHORT _ _ => 2
  | .PUSH _ => 6
  | .POP _ => 6
  | .LDL _ _ => 6
  | .CALL _ _ => 34
  | .CALLF _ _ _ => 14
  | .RET _ => 8
  | _ => 2

/-- Association-list lookup standing for the emitter's `HashMap<u64, u16>`. -/
def lookupL : List (Nat × Nat) → Nat → Option Nat
  | [], _ => none
  | (k, v) :: rest, id => if k = id then some v else lookupL rest id

/-- `collect_labels` from `src/sasm/src/main.rs`: walk the tokens, record
each `Label`'s `(id, address)`, fatal on a duplicate id. -/
def collect_labels : List Token → List (Nat × Nat) → Option (List (Nat × Nat))
  | [], acc => some acc
  | .LABEL id a :: rest, acc =>
    if (lookupL acc id).isSome then none
    else collect_labels rest (acc ++ [(id, a)])
  | _ :: rest, acc => collect_labels rest acc

/-- `check_register_range(reg, ceil)`: `reg <= ceil` (the `ToPrimitive`
conversion of the fieldless `RegisterId` enum always succeeds). -/
def check_register_range (reg ceil : Nat) : Bool := reg ≤ ceil

/-- One arm of `gen_executable`'s token loop (`src/sasm/src/main.rs`):
`none` is the `critical!` exit.  Ceilings: `R7 = 7`, `SP = 8`, `C1 = 10`.
The words pushed are exactly the source's `push_short` arguments. -/
def emit_token (labels : List (Nat × Nat)) (e : Executable) : Token → Option Executable
  | .SHORT s l =>
    if l then
      match lookupL labels s with
      | some v => some (push_list e [v])
      | none => none
    else some (push_list e [s % 65536])
  | .ADDR a => some { e with address := a }
  | .NOP => some (push_list e [0x0000])
  | .AND x y =>
    if check_register_range x 7 ∧ check_register_range y 7 then
      some (push_list e [0x1000 ||| (x <<< 8) ||| (y <<< 4)])
    else none
  | .NOT x =>
    if check_register_range x 7 then some (push_list e [0x1001 ||| (x <<< 8)]) else none
  | .ADD x y =>
    if check_register_range x 7 ∧ check_register_range y 7 then
      some (push_list e [0x2000 ||| (x <<< 8) ||| (y <<< 4)])
    else none
  | .SUB x y =>
    if check_register_range x 7 ∧ check_register_range y 7 then
      some (push_list e [0x2001 ||| (x <<< 8) ||| (y <<< 4)])
    else none
  | .INC x =>
    if check_register_range x 8 then some (push_list e [0x2002 ||| (x <<< 8)]) else none
  | .DEC x =>
    if check_register_range x 8 then some (push_list e [0x2003 ||| (x <<< 8)]) else none
  | .LDB x y =>
    if check_register_range x 7 ∧ check_register_range y 8 then
      some (push_list e [0x3000 ||| (x <<< 8) ||| (y <<< 4)])
    else none
  | .LDW x y =>
    if check_register_range x 7 ∧ check_register_range y 8 then
      some (push_list e [0x3001 ||| (x <<< 8) ||| (y <<< 4)])
    else none
  | .MOV x y =>
    if check_register_range x 10 ∧ check_register_range y 10 then
      some (push_list e [0x3002 ||| (x <<< 8) ||| (y <<< 4)])
    else none
  | .LDI x nn =>
    if check_register_range x 7 then
      some (push_list e [0x4000 ||| (x <<< 8) ||| nn])
    else none
  | .STB y x =>
    if check_register_range y 8 ∧ check_register_range x 7 then
      some (push_list e [0x5000 ||| (y <<< 8) ||| (x <<< 4)])
    else none
  | .STW y x =>
    if check_register_range y 8 ∧ check_register_range x 7 then
      some (push_list e [0x5001 ||| (y <<< 8) ||| (x <<< 4)])
    else none
  | .JMP x =>
    if check_register_range x 8 then some (push_list e [0x6000 ||| (x <<< 8)]) else none
  | .JNZ x y =>
    if check_register_range x 8 ∧ check_register_range y 7 then
      some (push_list e [0x6001 ||| (x <<< 8) ||| (y <<< 4)])
    else none
  | .SHR x n =>
    if check_register_range x 7 then
      some (push_list e [0x7000 ||| (x <<< 8) ||| ((n &&& 0x0F) <<< 4)])
    else none
  | .SHL x n =>
    if check_register_range x 7 then
      some (push_list e [0x7001 ||| (x <<< 8) ||| ((n &&& 0x0F) <<< 4)])
    else none
  | .TEST n => some (push_list e [0x8000 ||| ((n &&& 0x0F) <<< 8)])
  | .SETF n => some (push_list e [0x8001 ||| ((n &&& 0x0F) <<< 8)])
  | .CLRF n => some (push_list e [0x8002 ||| ((n &&& 0x0F) <<< 8)])
  | .PUSH x =>
    if check_register_range x 7 then
      some (push_list e [0x2803, 0x2803, 0x5801 ||| (x <<< 4)])
    else none
  | .POP x =>
    if check_register_range x 7 then
      some (push_list e [0x3081 ||| (x <<< 8), 0x2802, 0x2802])
    else none
  | .LDL x k =>
    let a :=
      match lookupL labels k with
      | some a => a
      | none => k % 65536
    some (push_list e
      [0x4000 ||| (x <<< 8) ||| ((a &&& 0xFF00) >>> 8),
       0x7081 ||| (x <<< 8),
       0x4000 ||| (x <<< 8) ||| (a &&& 0x00FF)])
  | .CALL x a =>
    if check_register_range x 7 then
      some (push_list e
        [0x2803, 0x2803, 0x2803, 0x2803,
         0x5801 ||| (x <<< 4),
         0x2802, 0x2802,
         0x4000 ||| (x <<< 8) ||| ((a &&& 0xFF00) >>> 8),
         0x7081 ||| (x <<< 8),
         0x4000 ||| (x <<< 8) ||| (a &&& 0x00FF),
         0x5801 ||| (x <<< 4),
         0x2803, 0x2803,
         0x3081 ||| (x <<< 8),
         0x2802, 0x2802,
         0x6000 ||| (x <<< 8)])
    else none
  | .CALLF x y a =>
    if check_register_range x 8 ∧ check_register_range y 7 then
      if x = y then none
      else
        some (push_list e
          [0x4000 ||| (y <<< 8) ||| ((a &&& 0xFF00) >>> 8),
           0x7081 ||| (y <<< 8),
           0x4000 ||| (y <<< 8) ||| (a &&& 0x00FF),
           0x2803, 0x2803,
           0x5801 ||| (y <<< 4),
           0x6000 ||| (x <<< 8)])
    else none
  | .RET x =>
    if check_register_range x 7 then
      some (push_list e
        [0x3081 ||| (x <<< 8), 0x2802, 0x2802, 0x6000 ||| (x <<< 8)])
    else none
  | .LABEL _ _ => some e

/-- The emitter's token loop with an explicit label table. -/
def emit_list (labels : List (Nat × Nat)) (e : Executable) :
    List Token → Option Executable
  | [] => some e
  | t :: rest =>
    match emit_token labels e t with
    | none => none
    | some e' => emit_list labels e' rest

/-- `gen_executable` from `src/sasm/src/main.rs`: collect the labels, then
emit every token into a fresh buffer. -/
def gen_executable (tokens : List Token) : Option Executable :=
  match collect_labels tokens [] with
  | none => none
  | some labels => emit_list labels exec0 tokens

/-- Assembly from trimmed source lines to output bytes (pass 1 + pass 2). -/
def assembleLines (tramp : Bool) (entry : String) (lines : List String) :
    Option (List Nat) :=
  match tokenize entry tramp lines with
  | none => none
  | some (_, toks) =>
    match gen_executable toks with
    | none => none
    | some exec => some exec.bytes

/-- Full single-file assembly: `get_lines`, then both passes. -/
def assemble (tramp : Bool) (entry : String) (content : String) : Option (List Nat) :=
  match get_lines content with
  | none => none
  | some lines => assembleLines tramp entry lines

/-- Sum of the per-token output sizes of a token stream. -/
def sum_sizes : List Token → Nat
  | [] => 0
  | t :: rest => emit_size t + sum_sizes rest

/-- The pass-1/pass-2 address agreement stated by the spec: every `Label`
token's recorded address equals the emitter's cursor at the moment that
token is consumed (the cursor after emitting the tokens before it). -/
def labels_aligned (labels : List (Nat × Nat)) (toks : List Token) : Prop :=
  ∀ k id a, toks.get? k = some (Token.LABEL id a) →
    ∃ e', emit_list labels exec0 (toks.take k) = some e' ∧ e'.address = a

/-- How the pass-1 cursor moves for one generated token: `Addr` sets it to
an in-range value, `Label` leaves it (and records it truncated), everything
else advances it by the token's emitted size. -/
def token_advance_ok (st st' : JobState) (t : Token) : Prop :=
  match t with
  | .ADDR a => st'.address = a ∧ a < 65536
  | .LABEL _ a => st'.address = st.address ∧ a = st.address % 65536
  | _ => st'.address = st.address + emit_size t

/-- Exceptions of the legacy VM (`src/rscvm/src/lib.rs`, lines 9-12): only
`IOP` and `SEG` exist there. -/
inductive RscvmException where
  | IOP
  | SEG
deriving DecidableEq, Repr

/-- The `Result<u16, Exception>` a legacy-VM step returns: the `Ok` payload
is the PC increment. -/
inductive RscvmOut where
  | ok (s : Nat)
  | exc (e : RscvmException)
deriving DecidableEq, Repr

/-- The legacy VM's register file (`Registers`): `r[0..8]`, `c[0..2]`,
`sp`, `fg`, `pc`, all `u16`. -/
structure RscvmRegisters where
  r : List Nat
  c : List Nat
  sp : Nat
  fg : Nat
  pc : Nat
deriving DecidableEq, Repr

/-- The legacy VM: memory bytes, the configured memory size, registers. -/
structure RscvmVM where
  mem : List Nat
  memSize : Nat
  regs : RscvmRegisters
deriving DecidableEq, Repr

/-- `u16` subtraction with wraparound (release-mode Rust semantics). -/
def wsub16 (a b : Nat) : Nat := (a + 65536 - b % 65536) % 65536

/-- `Registers::num_to_ptr`, read direction: `0x0A → sp`,
`0x08 | 0x09 → c[num - 8]`, `0x01..=0x07 → r[num]`, otherwise `None`
(note: `0x00` has no arm). -/
def rscvm_num_to_ptr_read (regs : RscvmRegisters) (num : Nat) : Option Nat :=
  if num = 0x0A then some regs.sp
  else if num = 0x08 ∨ num = 0x09 then some (regs.c.getD (num - 0x08) 0)
  else if 0x01 ≤ num ∧ num ≤ 0x07 then some (regs.r.getD num 0)
  else none

/-- `Registers::num_to_ptr`, write direction (the returned `&mut u16`
assigned through). -/
def rscvm_num_to_ptr_write (regs : RscvmRegisters) (num v : Nat) :
    Option RscvmRegisters :=
  if num = 0x0A then some { regs with sp := v }
  else if num = 0x08 ∨ num = 0x09 then some { regs with c := regs.c.set (num - 0x08) v }
  else if 0x01 ≤ num ∧ num ≤ 0x07 then some { regs with r := regs.r.set num v }
  else none

/-- An indexed read of `self.mem.data[i]`; `none` is the host panic on an
out-of-bounds index. -/
def rscvm_mem_read (vm : RscvmVM) (i : Nat) : Option Nat :=
  if i < vm.mem.length then some (vm.mem.getD i 0) else none

/-- An indexed write to `self.mem.data[i]`; `none` is the host panic on an
out-of-bounds index. -/
def rscvm_mem_write (vm : RscvmVM) (i v : Nat) : Option RscvmVM :=
  if i < vm.mem.length then some { vm with mem := vm.mem.set i v } else none

/-- `VirtualMachine::fetch`: returns 0 (HLT) near the end of memory,
otherwise reads the 16-bit opcode big-endian (high byte at `pc`). -/
def rscvm_fetch (vm : RscvmVM) : Nat :=
  if vm.regs.pc > wsub16 vm.memSize 2 then 0
  else ((vm.mem.getD vm.regs.pc 0) <<< 8) ||| vm.mem.getD (vm.regs.pc + 1) 0

/-- `VirtualMachine::step` of the legacy VM, one arm per `Instruction`
variant, dispatching on the top nibble.  `none` models a host-level panic
(the `unwrap()` of `num_to_ptr`, an out-of-bounds memory index, or the
unreachable decoder `panic!`); `u16` arithmetic wraps. -/
def rscvm_step (vm : RscvmVM) : Option (RscvmVM × RscvmOut) :=
  let w := rscvm_fetch vm
  let nibble := (w &&& 0xF000) >>> 12
  if nibble = 0x0 then
    some (vm, .ok 0)
  else if nibble = 0x1 then
    -- CALL
    if ¬ (w &&& 0x00FF) = 0 then some (vm, .exc .SEG)
    else
      let x := (w &&& 0x0F00) >>> 8
      if x ≥ 8 then some (vm, .exc .IOP)
      else if vm.regs.sp < 2 then some (vm, .exc .SEG)
      else
        let tmp := (vm.regs.pc + 2) % 65536
        let vm := { vm with regs := { vm.regs with pc := tmp } }
        match rscvm_mem_write vm tmp ((tmp &&& 0xFF00) >>> 8) with
        | none => none
        | some vm =>
          match rscvm_mem_write vm ((tmp + 1) % 65536) (tmp &&& 0x00FF) with
          | none => none
          | some vm => some (vm, .ok 0)
  else if nibble = 0x2 then
    -- RET
    if ¬ (w &&& 0x0FFF) = 0 then some (vm, .exc .SEG)
    else if vm.regs.sp > wsub16 vm.memSize 2 then some (vm, .exc .SEG)
    else
      match rscvm_mem_read vm vm.regs.sp with
      | none => none
      | some hi =>
        match rscvm_mem_read vm ((vm.regs.pc + 1) % 65536) with
        | none => none
        | some lo =>
          some ({ vm with regs :=
            { vm.regs with pc := (hi <<< 8) ||| lo, sp := (vm.regs.sp + 2) % 65536 } },
            .ok 0)
  else if nibble = 0x3 then
    -- JMP
    if ¬ (w &&& 0x00FF) = 0 then some (vm, .exc .SEG)
    else
      let x := (w &&& 0x0F00) >>> 8
      if x ≥ 8 then some (vm, .exc .IOP)
      else some ({ vm with regs := { vm.regs with pc := vm.regs.r.getD x 0 } }, .ok 0)
  else if nibble = 0x4 then
    -- JNZ
    if ¬ (w &&& 0x000F) = 0 then some (vm, .exc .SEG)
    else
      let x := (w &&& 0x0F00) >>> 8
      let y := (w &&& 0x00F0) >>> 4
      if x ≥ 8 ∨ y ≥ 8 then some (vm, .exc .IOP)
      else if ¬ vm.regs.r.getD y 0 = 0 then
        some ({ vm with regs := { vm.regs with pc := vm.regs.r.getD x 0 } }, .ok 0)
      else some (vm, .ok 2)
  else if nibble = 0x5 then
    -- MOV
    if ¬ (w &&& 0x000F) = 0 then some (vm, .exc .SEG)
    else
      let x := (w &&& 0x0F00) >>> 8
      let y := (w &&& 0x00F0) >>> 4
      if x > 0x0A ∨ y > 0x0A then some (vm, .exc .IOP)
      else
        match rscvm_num_to_ptr_read vm.regs y with
        | none => none
        | some ry =>
          match rscvm_num_to_ptr_write vm.regs x ry with
          | none => none
          | some regs => some ({ vm with regs := regs }, .ok 2)
  else if nibble = 0x6 then
    -- LDI
    let x := (w &&& 0x0F00) >>> 8
    if x ≥ 8 then some (vm, .exc .IOP)
    else
      some ({ vm with regs := { vm.regs with
        r := vm.regs.r.set x ((vm.regs.r.getD x 0 &&& 0xFF00) ||| (w &&& 0x00FF)) } },
        .ok 2)
  else if nibble = 0x7 then
    -- LDA
    let x := (w &&& 0x0F00) >>> 8
    let y := (w &&& 0x00F0) >>> 4
    if x ≥ 8 ∨ y ≥ 8 then some (vm, .exc .IOP)
    else
      let addr := vm.regs.r.getD y 0
      if addr > wsub16 vm.memSize 2 then some (vm, .exc .SEG)
      else
        let hilo : Option (Nat × Nat) :=
          if w &&& 0x000F = 0x0 then
            match rscvm_mem_read vm addr with
            | none => none
            | some lo => some (vm.regs.r.getD x 0 &&& 0xFF00, lo)
          else if w &&& 0x000F = 0x1 then
            match rscvm_mem_read vm addr, rscvm_mem_read vm ((addr + 1) % 65536) with
            | some hi, some lo => some (hi, lo)
            | _, _ => none
          else none
        if w &&& 0x000F ≥ 2 then some (vm, .exc .IOP)
        else
          match hilo with
          | none => none
          | some (hi, lo) =>
            some ({ vm with regs := { vm.regs with
              r := vm.regs.r.set x (((hi <<< 8) % 65536) ||| lo) } }, .ok 2)
  else if nibble = 0x8 then
    -- STA
    let y := (w &&& 0x0F00) >>> 8
    let x := (w &&& 0x00F0) >>> 4
    if x ≥ 8 ∨ y ≥ 8 then some (vm, .exc .IOP)
    else
      let addr := vm.regs.r.getD y 0
      if addr > wsub16 vm.memSize 2 then some (vm, .exc .SEG)
      else if w &&& 0x000F = 0x0 then
        match rscvm_mem_write vm addr (vm.regs.r.getD x 0 &&& 0x00FF) with
        | none => none
        | some vm => some (vm, .ok 2)
      else if w &&& 0x000F = 0x1 then
        match rscvm_mem_write vm addr ((vm.regs.r.getD x 0 &&& 0xFF00) >>> 8) with
        | none => none
        | some vm2 =>
          match rscvm_mem_write vm2 ((addr + 1) % 65536) (vm.regs.r.getD x 0 &&& 0x00FF) with
          | none => none
          | some vm2 => some (vm2, .ok 2)
      else some (vm, .exc .IOP)
  else if nibble = 0x9 then
    -- PUSH
    if vm.regs.sp < 2 then some (vm, .exc .SEG)
    else
      let value : Option (Option Nat) :=
        if w &&& 0x00FF = 0x00 then
          let x := (w &&& 0x0F00) >>> 8
          if x > 0x0A then some none
          else
            match rscvm_num_to_ptr_read vm.regs x with
            | none => none
            | some v => some (some v)
        else if w &&& 0x00FF = 0x01 then
          if ¬ (w &&& 0x0FF0) = 0 then some none else some (some vm.regs.fg)
        else some none
      match value with
      | none => none
      | some none => some (vm, .exc .IOP)
      | some (some v) =>
        let sp' := vm.regs.sp - 2
        let vm := { vm with regs := { vm.regs with sp := sp' } }
        match rscvm_mem_write vm sp' ((v &&& 0xFF00) >>> 8) with
        | none => none
        | some vm =>
          match rscvm_mem_write vm ((sp' + 1) % 65536) (v &&& 0x00FF) with
          | none => none
          | some vm => some (vm, .ok 2)
  else if nibble = 0xA then
    -- POP
    if vm.regs.sp ≥ vm.memSize then some (vm, .exc .SEG)
    else
      match rscvm_mem_read vm vm.regs.sp, rscvm_mem_read vm ((vm.regs.sp + 1) % 65536) with
      | some hi, some lo =>
        let value := (hi <<< 8) ||| lo
        if w &&& 0x00FF = 0x00 then
          let x := (w &&& 0x0F00) >>> 8
          if x > 0x0A then some (vm, .exc .IOP)
          else
            match rscvm_num_to_ptr_write vm.regs x value with
            | none => none
            | some regs =>
              some ({ vm with regs := { regs with sp := (regs.sp + 2) % 65536 } }, .ok 2)
        else if w &&& 0x00FF = 0x01 then
          if ¬ (w &&& 0x0FF0) = 0 then some (vm, .exc .IOP)
          else
            some ({ vm with regs := { vm.regs with
              fg := value, sp := (vm.regs.sp + 2) % 65536 } }, .ok 2)
        else some (vm, .exc .IOP)
      | _, _ => none
  else if nibble = 0xB then
    -- AND
    if ¬ (w &&& 0x000F) = 0 then some (vm, .exc .IOP)
    else
      let x := (w &&& 0x0F00) >>> 8
      let y := (w &&& 0x00F0) >>> 4
      if x ≥ 8 ∨ y ≥ 8 then some (vm, .exc .IOP)
      else
        some ({ vm with regs := { vm.regs with
          r := vm.regs.r.set x (vm.regs.r.getD x 0 &&& vm.regs.r.getD y 0) } }, .ok 2)
  else if nibble = 0xC then
    -- NOT
    if ¬ (w &&& 0x00FF) = 0 then some (vm, .exc .IOP)
    else
      let x := (w &&& 0x0F00) >>> 8
      if x ≥ 8 then some (vm, .exc .IOP)
      else
        some ({ vm with regs := { vm.regs with
          r := vm.regs.r.set x (vm.regs.r.getD x 0 ^^^ 0xFFFF) } }, .ok 2)
  else if nibble = 0xD then
    -- SHR
    let x := (w &&& 0x0F00) >>> 8
    if x ≥ 8 then some (vm, .exc .IOP)
    else
      some ({ vm with regs := { vm.regs with
        r := vm.regs.r.set x (vm.regs.r.getD x 0 >>> ((w &&& 0x00FF) % 16)) } }, .ok 2)
  else if nibble = 0xE then
    -- SHL
    let x := (w &&& 0x0F00) >>> 8
    if x ≥ 8 then some (vm, .exc .IOP)
    else
      some ({ vm with regs := { vm.regs with
        r := vm.regs.r.set x ((vm.regs.r.getD x 0 <<< ((w &&& 0x00FF) % 16)) % 65536) } },
        .ok 2)
  else if nibble = 0xF then
    -- ADD
    if ¬ (w &&& 0x000F) = 0 then some (vm, .exc .IOP)
    else
      let x := (w &&& 0x0F00) >>> 8
      let y := (w &&& 0x00F0) >>> 4
      if x ≥ 8 ∨ y ≥ 8 then some (vm, .exc .IOP)
      else
        some ({ vm with regs := { vm.regs with
          r := vm.regs.r.set x ((vm.regs.r.getD x 0 + vm.regs.r.getD y 0) % 65536) } },
          .ok 2)
  else none

/-- Modelled from the spec: the 16-bit VM's exception kinds (§4.6).  The
`svirt` library that implements them is not among the sources (only its
CLI caller `src/svirt/src/main.rs` is). -/
inductive SException where
  | IOP
  | SEG
  | UNA
deriving DecidableEq, Repr

/-- Modelled from the spec: machine state of the 16-bit VM (§3, §4.6) —
eight general registers, `SP`, `C0`, `C1`, the flag word `FG`, the program
counter `PC`, and byte memory of size `memSize`. -/
structure SvirtState where
  mem : List Nat
  memSize : Nat
  r : List Nat
  sp : Nat
  c0 : Nat
  c1 : Nat
  fg : Nat
  pc : Nat
deriving DecidableEq, Repr

/-- Modelled from the spec: (§4.6) the `FG` bit recording each exception —
`IOP → 15`, `SEG → 14`, `UNA → 13`. -/
def exception_bit : SException → Nat
  | .IOP => 15
  | .SEG => 14
  | .UNA => 13

/-- Modelled from the spec: (§4.6) recording an exception sets its `FG`
bit; nothing else changes and execution is not stopped. -/
def s_raise (vm : SvirtState) (e : SException) : SvirtState :=
  { vm with fg := vm.fg ||| (1 <<< exception_bit e) }

/-- Modelled from the spec: (§3) resolving an operand field to a register,
`0x00..0x07 → R0..R7`, `0x08 → SP`, `0x09 → C0`, `0x0A → C1`. -/
def s_reg_get (vm : SvirtState) (n : Nat) : Nat :=
  if n < 8 then vm.r.getD n 0
  else if n = 8 then vm.sp
  else if n = 9 then vm.c0
  else vm.c1

/-- Modelled from the spec: (§3) writing through the operand-field table. -/
def s_reg_set (vm : SvirtState) (n v : Nat) : SvirtState :=
  if n < 8 then { vm with r := vm.r.set n v }
  else if n = 8 then { vm with sp := v }
  else if n = 9 then { vm with c0 := v }
  else { vm with c1 := v }

/-- Modelled from the spec: (§4.6) fetch the little-endian 16-bit word at
`PC`. -/
def s_fetch (vm : SvirtState) : Nat :=
  (vm.mem.getD vm.pc 0) ||| ((vm.mem.getD (vm.pc + 1) 0) <<< 8)

/-- Modelled from the spec: (§4.1, §4.6, §4.7) one fetch/decode/execute
step of the 16-bit VM.  Decoding keys on the class nibble and the two
sub-opcode bits (mask `0xF003`); illegal operand fields and unrecognized
sub-opcodes raise `IOP`; out-of-range memory accesses raise `SEG`
(`a ≥ size` for bytes, `a ≥ size - 1` for words); odd jump targets raise
`UNA` and fall through (keeping `PC` even, §3's invariant); every faulting
instruction just sets its flag bit and execution continues at the next
word.  All register arithmetic wraps modulo `2^16` (§9). -/
def s_step (vm : SvirtState) : SvirtState :=
  let w := s_fetch vm
  let cls := w >>> 12
  let sub := w &&& 0x3
  let x := (w >>> 8) &&& 0xF
  let y := (w >>> 4) &&& 0xF
  let next (v : SvirtState) : SvirtState := { v with pc := (v.pc + 2) % 65536 }
  let iop := next (s_raise vm .IOP)
  if cls = 0x0 then
    if sub = 0 then next vm else iop
  else if cls = 0x1 then
    if sub = 0 then
      if x ≤ 7 ∧ y ≤ 7 then
        next (s_reg_set vm x (s_reg_get vm x &&& s_reg_get vm y))
      else iop
    else if sub = 1 then
      if x ≤ 7 then next (s_reg_set vm x (s_reg_get vm x ^^^ 0xFFFF)) else iop
    else iop
  else if cls = 0x2 then
    if sub = 0 then
      if x ≤ 7 ∧ y ≤ 7 then
        next (s_reg_set vm x ((s_reg_get vm x + s_reg_get vm y) % 65536))
      else iop
    else if sub = 1 then
      if x ≤ 7 ∧ y ≤ 7 then
        next (s_reg_set vm x ((s_reg_get vm x + (65536 - s_reg_get vm y % 65536)) % 65536))
      else iop
    else if sub = 2 then
      if x ≤ 8 then next (s_reg_set vm x ((s_reg_get vm x + 1) % 65536)) else iop
    else
      if x ≤ 8 then
        next (s_reg_set vm x ((s_reg_get vm x + (65536 - 1 % 65536)) % 65536))
      else iop
  else if cls = 0x3 then
    if sub = 0 then
      if x ≤ 7 ∧ y ≤ 8 then
        let a := s_reg_get vm y
        if a ≥ vm.memSize then next (s_raise vm .SEG)
        else next (s_reg_set vm x ((s_reg_get vm x &&& 0xFF00) ||| vm.mem.getD a 0))
      else iop
    else if sub = 1 then
      if x ≤ 7 ∧ y ≤ 8 then
        let a := s_reg_get vm y
        if a + 1 ≥ vm.memSize then next (s_raise vm .SEG)
        else next (s_reg_set vm x ((vm.mem.getD a 0) ||| ((vm.mem.getD (a + 1) 0) <<< 8)))
      else iop
    else if sub = 2 then
      if x ≤ 10 ∧ y ≤ 10 then next (s_reg_set vm x (s_reg_get vm y)) else iop
    else iop
  else if cls = 0x4 then
    if x ≤ 7 then
      next (s_reg_set vm x ((s_reg_get vm x &&& 0xFF00) ||| (w &&& 0x00FF)))
    else iop
  else if cls = 0x5 then
    let ya := (w >>> 8) &&& 0xF
    let xv := (w >>> 4) &&& 0xF
    if sub = 0 then
      if ya ≤ 8 ∧ xv ≤ 7 then
        let a := s_reg_get vm ya
        if a ≥ vm.memSize then next (s_raise vm .SEG)
        else next { vm with mem := vm.mem.set a (s_reg_get vm xv &&& 0x00FF) }
      else iop
    else if sub = 1 then
      if ya ≤ 8 ∧ xv ≤ 7 then
        let a := s_reg_get vm ya
        if a + 1 ≥ vm.memSize then next (s_raise vm .SEG)
        else
          let mem' := (vm.mem.set a (s_reg_get vm xv &&& 0x00FF)).set (a + 1)
            ((s_reg_get vm xv &&& 0xFF00) >>> 8)
          next { vm with mem := mem' }
      else iop
    else iop
  else if cls = 0x6 then
    if sub = 0 then
      if x ≤ 8 then
        let t := s_reg_get vm x
        if t % 2 = 1 then next (s_raise vm .UNA) else { vm with pc := t }
      else iop
    else if sub = 1 then
      if x ≤ 8 ∧ y ≤ 7 then
        if s_reg_get vm y = 0 then
          let t := s_reg_get vm x
          if t % 2 = 1 then next (s_raise vm .UNA) else { vm with pc := t }
        else next vm
      else iop
    else iop
  else if cls = 0x7 then
    if sub = 0 then
      if x ≤ 7 then next (s_reg_set vm x (s_reg_get vm x >>> y)) else iop
    else if sub = 1 then
      if x ≤ 7 then next (s_reg_set vm x ((s_reg_get vm x <<< y) % 65536)) else iop
    else iop
  else if cls = 0x8 then
    if sub = 0 then
      if vm.fg.testBit x then { vm with pc := (vm.pc + 4) % 65536 } else next vm
    else if sub = 1 then
      next { vm with fg := vm.fg ||| (1 <<< x) }
    else if sub = 2 then
      next { vm with fg := vm.fg &&& (0xFFFF ^^^ (1 <<< x)) }
    else iop
  else iop

/-- Modelled from the spec: (§4.6) the paced interpreter loop, abstracted
to its step count (pacing and the `should_run` cancellation flag are
host-time concerns); each pacing checkpoint runs exactly one `step`, and
nothing — in particular no exception — breaks the loop. -/
def s_run : Nat → SvirtState → SvirtState
  | 0, vm => vm
  | n + 1, vm => s_run n (s_step vm)

theorem native_token_size {i : String} {args : List String} {t : Token}
    (h : native_token i args = .tok t) : emit_size t = 2 := by
  unfold native_token at h
  split at h
  all_goals (iterate 3 (try split at h))
  all_goals (cases h)
  all_goals rfl

theorem gen_pseudo_shape {st : JobState} {i : String} {args : List String}
    {st' : JobState} {t : Token}
    (h : gen_pseudo_instruction_token st i args = some (st', t)) :
    st'.entry = st.entry ∧ st'.trampoline = st.trampoline ∧
      st'.address = st.address + (emit_size t - 2) ∧ 2 ≤ emit_size t := by
  unfold gen_pseudo_instruction_token at h
  split at h
  all_goals (iterate 6 ((try dsimp only at h); (try split at h)))
  all_goals (try cases h)
  all_goals simp [emit_size]

theorem gen_instruction_shape {st : JobState} {i a : String}
    {st' : JobState} {t : Token}
    (h : gen_instruction_token st i a = some (st', t)) :
    st'.entry = st.entry ∧ st'.trampoline = st.trampoline ∧
      st'.address = st.address + emit_size t ∧ 2 ≤ emit_size t := by
  unfold gen_instruction_token at h
  dsimp only at h
  split at h
  · next t' hnat =>
    cases h
    have h2 := native_token_size hnat
    simp [h2]
  · exact absurd h (by simp)
  · next hnat =>
    obtain ⟨h1, h2, h3, h5⟩ := gen_pseudo_shape h
    refine ⟨h1, h2, ?_, h5⟩
    simp at h3
    omega

theorem gen_directive_shape {st : JobState} {hd a : String}
    {st' : JobState} {t : Token}
    (h : gen_directive_token st hd a = some (st', t)) :
    st'.entry = st.entry ∧ st'.trampoline = st.trampoline ∧
      token_advance_ok st st' t := by
  unfold gen_directive_token at h
  split at h
  · dsimp only at h
    split at h
    · -- short
      iterate 6 ((try dsimp only at h); (try split at h))
      all_goals (try cases h)
      all_goals simp_all [token_advance_ok, emit_size]
    · -- addr
      split at h
      · rcases hav : (match rustParseNat 10 65536 ((strSplit ',' a).getD 0 "") with
          | some v => some v
          | none => rustParseNat 16 65536 (trim_0x ((strSplit ',' a).getD 0 ""))) with _ | address
        · rw [hav] at h; cases h
        · rw [hav] at h
          by_cases h2 : address % 2 ≠ 0
          · simp [h2] at h
          · by_cases h3 : address > 65535
            · simp [h2, h3] at h
            · simp [h2, h3] at h
              obtain ⟨rfl, rfl⟩ := h
              refine ⟨rfl, rfl, ?_⟩
              unfold token_advance_ok
              simp
              omega
      · cases h
    · cases h
  · cases h

theorem gen_label_shape {st : JobState} {l : String}
    {st' : JobState} {t : Token}
    (h : gen_label_token st l = some (st', t)) :
    st'.entry = st.entry ∧
      ((st'.trampoline = st.trampoline ∧ token_advance_ok st st' t) ∨
       (st.trampoline = true ∧ st'.trampoline = false ∧
         st.address = 8 ∧ st'.address = 0 ∧ ∃ id, t = .LABEL id 0)) := by
  unfold gen_label_token at h
  split at h
  all_goals (iterate 4 ((try dsimp only at h); (try split at h)))
  all_goals (try cases h)
  · next hcond =>
    refine ⟨rfl, Or.inr ?_⟩
    simp_all [token_advance_ok]
  · next hcond =>
    exact ⟨rfl, Or.inl ⟨rfl, ⟨rfl, rfl⟩⟩⟩

theorem gen_token_shape {st : JobState} {raw : String}
    {st' : JobState} {t : Token}
    (h : gen_token st raw = some (st', t)) :
    st'.entry = st.entry ∧
      ((st'.trampoline = st.trampoline ∧ token_advance_ok st st' t) ∨
       (st.trampoline = true ∧ st'.trampoline = false ∧
         st.address = 8 ∧ st'.address = 0 ∧ ∃ id, t = .LABEL id 0)) := by
  unfold gen_token at h
  dsimp only at h
  split at h
  · obtain ⟨h1, h2, h3⟩ := gen_directive_shape h
    exact ⟨h1, Or.inl ⟨h2, h3⟩⟩
  · split at h
    · exact gen_label_shape h
    · obtain ⟨h1, h2, h3, h4⟩ := gen_instruction_shape h
      refine ⟨h1, Or.inl ⟨h2, ?_⟩⟩
      unfold token_advance_ok
      (repeat' split) <;> simp_all [emit_size]

theorem tokenize_lines_state {lines : List String} {st st' : JobState} {toks : List Token}
    (h : tokenize_lines st lines = some (st', toks)) :
    st'.entry = st.entry ∧ (st.trampoline = false → st'.trampoline = false) := by
  induction lines generalizing st toks with
  | nil =>
    unfold tokenize_lines at h
    cases h
    exact ⟨rfl, fun hf => hf⟩
  | cons line rest ih =>
    unfold tokenize_lines at h
    split at h
    · cases h
    · split at h
      · cases h
      · next st1 t1 hgen =>
        split at h
        · cases h
        · next st2 toks2 hrest =>
          cases h
          obtain ⟨he1, hor⟩ := gen_token_shape hgen
          obtain ⟨he2, hf2⟩ := ih hrest
          refine ⟨he2.trans he1, fun hf => ?_⟩
          rcases hor with ⟨hfe, -⟩ | ⟨hft, hff, -⟩
          · exact hf2 (hfe.trans hf)
          · exact hf2 hff

theorem push_byte_addr (e : Executable) (b : Nat) :
    (e.push_byte b).address = (e.address + 1) % 65536 := rfl

theorem push_short_addr (e : Executable) (s : Nat) :
    (e.push_short s).address = (e.address + 2) % 65536 := by
  unfold Executable.push_short
  rw [push_byte_addr, push_byte_addr]
  omega

theorem push_list_addr :
    ∀ (ws : List Nat) (e : Executable), e.address < 65536 →
      (push_list e ws).address = (e.address + 2 * ws.length) % 65536 := by
  intro ws
  induction ws with
  | nil => intro e he; simp [push_list, Nat.mod_eq_of_lt he]
  | cons w rest ih =>
    intro e he
    show (push_list (e.push_short w) rest).address = _
    rw [ih (e.push_short w) (by rw [push_short_addr]; omega), push_short_addr]
    simp [Nat.mod_add_mod]
    omega

theorem emit_token_addr {L : List (Nat × Nat)} {e : Executable} {t : Token}
    {e' : Executable}
    (h : emit_token L e t = some e') (he : e.address < 65536)
    (hna : ∀ a, t ≠ .ADDR a) :
    e'.address = (e.address + emit_size t) % 65536 := by
  cases t
  all_goals (try exact absurd rfl (hna _))
  all_goals (simp only [emit_token] at h)
  all_goals (iterate 2 (try split at h))
  all_goals (try exact Option.noConfusion h)
  all_goals (injection h with h2; subst h2)
  all_goals (try (rw [push_list_addr _ _ he]; rfl))
  all_goals simp [emit_size, Nat.mod_eq_of_lt he]

/-- The pass-1 / pass-2 cursor lockstep: along any successfully tokenized
and emitted stream in which the trampoline rewind did not fire, the
emitter's cursor tracks the tokenizer's cursor modulo `2^16`, and every
`Label` token's recorded address is the emitter cursor at its consumption. -/
theorem tok_emit_lockstep :
    ∀ (lines : List String) (st st' : JobState) (toks : List Token)
      (L : List (Nat × Nat)) (e exec : Executable),
      tokenize_lines st lines = some (st', toks) →
      emit_list L e toks = some exec →
      st'.trampoline = st.trampoline →
      e.address = st.address % 65536 →
      exec.address = st'.address % 65536 ∧
        (∀ k id a, toks.get? k = some (.LABEL id a) →
          ∃ e', emit_list L e (toks.take k) = some e' ∧ e'.address = a) := by
  intro lines
  induction lines with
  | nil =>
    intro st st' toks L e exec htok hemit _ he
    unfold tokenize_lines at htok
    cases htok
    unfold emit_list at hemit
    cases hemit
    exact ⟨he, fun k id a hk => by cases k <;> cases hk⟩
  | cons line rest ih =>
    intro st st' toks L e exec htok hemit hflag he
    unfold tokenize_lines at htok
    split at htok
    · cases htok
    · split at htok
      · cases htok
      · next st1 t1 hgen =>
        split at htok
        · cases htok
        · next st2 toks2 hrest =>
          cases htok
          -- the step did not rewind: otherwise the rest would keep the flag
          -- false while `hflag` says it returned to `st.trampoline = true`
          obtain ⟨hent, hor⟩ := gen_token_shape hgen
          have hstep : st1.trampoline = st.trampoline ∧ token_advance_ok st st1 t1 := by
            rcases hor with h1 | ⟨hft, hff, -⟩
            · exact h1
            · exfalso
              have := (tokenize_lines_state hrest).2 hff
              rw [hflag, hft] at this
              cases this
          obtain ⟨hf1, hadv⟩ := hstep
          unfold emit_list at hemit
          split at hemit
          · cases hemit
          · next e1 het =>
            have hflag2 : st'.trampoline = st1.trampoline := by
              rw [hflag, hf1]
            have he1 : e1.address = st1.address % 65536 := by
              cases t1
              case LABEL id a =>
                unfold token_advance_ok at hadv
                unfold emit_token at het
                cases het
                rw [hadv.1, he]
              case ADDR a =>
                unfold token_advance_ok at hadv
                unfold emit_token at het
                cases het
                show _ = st1.address % 65536
                rw [hadv.1, Nat.mod_eq_of_lt hadv.2]
              all_goals
                rw [emit_token_addr het (he ▸ Nat.mod_lt _ (by omega))
                  (by intro a hc; cases hc)]
              all_goals unfold token_advance_ok at hadv
              all_goals rw [hadv, he, Nat.mod_add_mod]
            obtain ⟨hfin, hlab⟩ := ih st1 st' toks2 L e1 exec hrest hemit hflag2 he1
            refine ⟨hfin, ?_⟩
            intro k id a hk
            cases k with
            | zero =>
              cases hk
              refine ⟨e, rfl, ?_⟩
              unfold token_advance_ok at hadv
              rw [he, ← hadv.2]
            | succ k =>
              obtain ⟨e'', h1, h2⟩ := hlab k id a hk
              refine ⟨e'', ?_, h2⟩
              show emit_list L e (t1 :: toks2.take k) = some e''
              unfold emit_list
              rw [het]
              exact h1

theorem push_byte_len {e : Executable} (b : Nat) (hlen : e.address = e.bytes.length)
    (hb : e.bytes.length + 1 ≤ 65535) :
    (e.push_byte b).bytes = e.bytes ++ [b] ∧
      (e.push_byte b).address = e.bytes.length + 1 := by
  unfold Executable.push_byte
  have h1 : e.bytes.length % 65536 = e.bytes.length := Nat.mod_eq_of_lt (by omega)
  simp only [h1, hlen]
  simp [Nat.mod_eq_of_lt (show e.bytes.length + 1 < 65536 by omega)]

theorem push_short_len {e : Executable} (s : Nat) (hlen : e.address = e.bytes.length)
    (hb : e.bytes.length + 2 ≤ 65535) :
    (e.push_short s).bytes.length = e.bytes.length + 2 ∧
      (e.push_short s).address = (e.push_short s).bytes.length := by
  unfold Executable.push_short
  obtain ⟨h1, h2⟩ := push_byte_len (s &&& 0x00FF) hlen (by omega)
  have hlen1 : (e.push_byte (s &&& 0x00FF)).address = (e.push_byte (s &&& 0x00FF)).bytes.length := by
    rw [h1, h2]; simp
  obtain ⟨h3, h4⟩ := push_byte_len ((s &&& 0xFF00) >>> 8) hlen1 (by rw [h1]; simp; omega)
  rw [h3, h4, h1]
  simp

theorem push_list_len :
    ∀ (ws : List Nat) (e : Executable), e.address = e.bytes.length →
      e.bytes.length + 2 * ws.length ≤ 65535 →
      (push_list e ws).bytes.length = e.bytes.length + 2 * ws.length ∧
        (push_list e ws).address = (push_list e ws).bytes.length := by
  intro ws
  induction ws with
  | nil => intro e hlen _; exact ⟨by simp [push_list], by simp [push_list, hlen]⟩
  | cons w rest ih =>
    intro e hlen hb
    show (push_list (e.push_short w) rest).bytes.length = _ ∧ _
    obtain ⟨h1, h2⟩ := push_short_len w hlen (by simp at hb; omega)
    obtain ⟨h3, h4⟩ := ih (e.push_short w) (by rw [h2, h1]) (by rw [h1]; simp at hb ⊢; omega)
    refine ⟨?_, h4⟩
    rw [h3, h1]
    simp
    omega

theorem push_list_goal (ws : List Nat) (e : Executable) (sz : Nat)
    (hws : 2 * ws.length = sz)
    (hlen : e.address = e.bytes.length) (hb : e.bytes.length + sz ≤ 65535) :
    (push_list e ws).bytes.length = e.bytes.length + sz ∧
      (push_list e ws).address = (push_list e ws).bytes.length := by
  subst hws
  exact push_list_len ws e hlen hb

theorem emit_token_len {L : List (Nat × Nat)} {e : Executable} {t : Token}
    {e' : Executable}
    (h : emit_token L e t = some e') (hlen : e.address = e.bytes.length)
    (hb : e.bytes.length + emit_size t ≤ 65535)
    (hna : ∀ a, t ≠ .ADDR a) :
    e'.bytes.length = e.bytes.length + emit_size t ∧ e'.address = e'.bytes.length := by
  cases t
  all_goals (try exact absurd rfl (hna _))
  all_goals (simp only [emit_token] at h)
  all_goals (iterate 2 (try split at h))
  all_goals (try exact Option.noConfusion h)
  all_goals (injection h with h2; subst h2)
  all_goals (simp only [emit_size] at hb ⊢)
  all_goals (try (exact push_list_goal _ _ _ (by simp) hlen hb))
  -- LABEL: nothing written
  exact ⟨by simp, hlen⟩

theorem emit_list_len :
    ∀ (toks : List Token) (L : List (Nat × Nat)) (e exec : Executable),
      emit_list L e toks = some exec →
      (∀ a, Token.ADDR a ∉ toks) →
      e.address = e.bytes.length →
      e.bytes.length + sum_sizes toks ≤ 65535 →
      exec.bytes.length = e.bytes.length + sum_sizes toks ∧
        exec.address = exec.bytes.length := by
  intro toks
  induction toks with
  | nil =>
    intro L e exec h _ hlen _
    unfold emit_list at h
    cases h
    exact ⟨by simp [sum_sizes], hlen⟩
  | cons t rest ih =>
    intro L e exec h hna hlen hb
    unfold emit_list at h
    split at h
    · cases h
    · next e1 het =>
      have hna1 : ∀ a, t ≠ Token.ADDR a := by
        intro a hc
        exact hna a (by rw [← hc]; exact List.mem_cons_self t rest)
      obtain ⟨h1, h2⟩ := emit_token_len het hlen (by simp only [sum_sizes] at hb; omega) hna1
      obtain ⟨h3, h4⟩ := ih L e1 exec h
        (fun a hm => hna a (List.mem_cons_of_mem t hm)) h2
        (by rw [h1]; simp only [sum_sizes] at hb; omega)
      refine ⟨?_, h4⟩
      rw [h3, h1]
      simp only [sum_sizes]
      omega

theorem tokenize_lines_sum :
    ∀ (lines : List String) (st st' : JobState) (toks : List Token),
      tokenize_lines st lines = some (st', toks) →
      st'.trampoline = st.trampoline →
      (∀ a, Token.ADDR a ∉ toks) →
      st'.address = st.address + sum_sizes toks := by
  intro lines
  induction lines with
  | nil =>
    intro st st' toks h _ _
    unfold tokenize_lines at h
    cases h
    simp [sum_sizes]
  | cons line rest ih =>
    intro st st' toks h hflag hna
    unfold tokenize_lines at h
    split at h
    · cases h
    · split at h
      · cases h
      · next st1 t1 hgen =>
        split at h
        · cases h
        · next st2 toks2 hrest =>
          cases h
          obtain ⟨-, hor⟩ := gen_token_shape hgen
          have hstep : st1.trampoline = st.trampoline ∧ token_advance_ok st st1 t1 := by
            rcases hor with h1 | ⟨hft, hff, -⟩
            · exact h1
            · exfalso
              have := (tokenize_lines_state hrest).2 hff
              rw [hflag, hft] at this
              cases this
          obtain ⟨hf1, hadv⟩ := hstep
          have hrec := ih st1 st' toks2 hrest (by rw [hflag, hf1])
            (fun a hm => hna a (List.mem_cons_of_mem t1 hm))
          have hstepa : st1.address = st.address + emit_size t1 := by
            cases t1
            case ADDR a => exact absurd (List.mem_cons_self _ _) (hna a)
            case LABEL id a =>
              unfold token_advance_ok at hadv
              simp [emit_size, hadv.1]
            all_goals exact hadv
          rw [hrec, hstepa]
          simp only [sum_sizes]
          omega

/-- C1 (amended): for every input source accepted by both passes, provided
the trampoline rewind did not fire (`st.trampoline = tramp`) and pass 1
ended within the 16-bit range, the emitter cursor finishes exactly at the
pass-1 cursor; every `Label` token's pass-1 address equals the emitter
cursor at the moment that token is consumed in pass 2; when no `.addr`
token occurs (the claim's "ignoring trailing `.addr` pads"), both equal
the output byte length; and per token the pass-1 advance is the emitter's
write size — `push`/`pop`/`ldl` 6 bytes, `call` 34, `callf` 14, `ret` 8,
every native instruction and `.short` 2, labels 0. -/
theorem c1_cursor_lockstep_amended
    (lines : List String) (entry : String) (tramp : Bool)
    (st : JobState) (toks : List Token) (L : List (Nat × Nat)) (exec : Executable)
    (htok : tokenize entry tramp lines = some (st, toks))
    (hlab : collect_labels toks [] = some L)
    (hemit : emit_list L exec0 toks = some exec)
    (hnorew : st.trampoline = tramp)
    (hfit : st.address ≤ 65535) :
    exec.address = st.address
    ∧ labels_aligned L toks
    ∧ ((∀ a, Token.ADDR a ∉ toks) →
        exec.bytes.length = st.address ∧ exec.address = exec.bytes.length)
    ∧ (∀ x, emit_size (Token.PUSH x) = 6 ∧ emit_size (Token.POP x) = 6 ∧
        emit_size (Token.RET x) = 8)
    ∧ (∀ x k, emit_size (Token.LDL x k) = 6)
    ∧ (∀ x a, emit_size (Token.CALL x a) = 34)
    ∧ (∀ x y a, emit_size (Token.CALLF x y a) = 14)
    ∧ (∀ v l, emit_size (Token.SHORT v l) = 2)
    ∧ (∀ i a, emit_size (Token.LABEL i a) = 0)
    ∧ (∀ (L' : List (Nat × Nat)) (e : Executable) (t : Token) (e' : Executable),
        emit_token L' e t = some e' → e.address < 65536 → (∀ a, t ≠ Token.ADDR a) →
        e'.address = (e.address + emit_size t) % 65536)
    ∧ (∀ (st0 : JobState) (line : String) (st1 : JobState) (t1 : Token),
        gen_token st0 line = some (st1, t1) → st1.trampoline = st0.trampoline →
        token_advance_ok st0 st1 t1) := by
  have hgen_adv : ∀ (st0 : JobState) (line : String) (st1 : JobState) (t1 : Token),
      gen_token st0 line = some (st1, t1) → st1.trampoline = st0.trampoline →
      token_advance_ok st0 st1 t1 := by
    intro st0 line st1' t1 hg hfl
    obtain ⟨-, hor⟩ := gen_token_shape hg
    rcases hor with ⟨-, h2⟩ | ⟨hft, hff, -⟩
    · exact h2
    · rw [hfl, hft] at hff; cases hff
  cases tramp with
  | false =>
    unfold tokenize at htok
    simp only [Bool.false_eq_true, if_false] at htok
    split at htok
    · cases htok
    · next st1 toks0 hrest =>
      injection htok with htok
      injection htok with hst htoks
      subst hst
      rw [hnorew] at htoks
      simp only [Bool.false_eq_true, if_false] at htoks
      subst htoks
      have hlock := tok_emit_lockstep lines _ st1 toks0 L exec0 exec hrest hemit
        (by rw [hnorew]) (by simp [exec0])
      obtain ⟨hfin, hlabal⟩ := hlock
      refine ⟨?_, hlabal, ?_, by simp [emit_size], by simp [emit_size],
        by simp [emit_size], by simp [emit_size], by simp [emit_size],
        by simp [emit_size],
        fun L' e t e' a b c => emit_token_addr a b c, hgen_adv⟩
      · rw [hfin, Nat.mod_eq_of_lt (by omega)]
      · intro hna
        have hsum : st1.address = (0 : Nat) + sum_sizes toks0 :=
          tokenize_lines_sum lines _ st1 toks0 hrest (by rw [hnorew]) hna
        obtain ⟨hl1, hl2⟩ := emit_list_len _ L exec0 exec hemit
          hna (by simp [exec0]) (by simp [exec0]; omega)
        refine ⟨?_, hl2⟩
        rw [hl1]
        simp only [exec0]
        simp
        omega
  | true =>
    unfold tokenize at htok
    simp only [if_true] at htok
    split at htok
    · cases htok
    · next st1 toks0 hrest =>
      injection htok with htok
      injection htok with hst htoks
      subst hst
      rw [hnorew] at htoks
      simp only [if_true] at htoks
      subst htoks
      have hemitF := hemit
      unfold emit_list at hemit
      split at hemit
      · cases hemit
      · next e1 het1 =>
        unfold emit_list at hemit
        split at hemit
        · cases hemit
        · next e2 het2 =>
          have he1a : e1.address = 6 :=
            emit_token_addr het1 (by simp [exec0]) (by intro a hc; cases hc)
          have he2a : e2.address = 8 := by
            rw [emit_token_addr het2 (by rw [he1a]; omega) (by intro a hc; cases hc),
              he1a]
            rfl
          have hlock := tok_emit_lockstep lines _ st1 toks0 L e2 exec hrest hemit
            (by rw [hnorew]) (by rw [he2a]; rfl)
          obtain ⟨hfin, hlabal⟩ := hlock
          refine ⟨?_, ?_, ?_, by simp [emit_size], by simp [emit_size],
            by simp [emit_size], by simp [emit_size], by simp [emit_size],
            by simp [emit_size],
            fun L' e t e' a b c => emit_token_addr a b c, hgen_adv⟩
          · rw [hfin, Nat.mod_eq_of_lt (by omega)]
          · intro k id a hk
            cases k with
            | zero => simp at hk
            | succ k =>
              cases k with
              | zero => simp at hk
              | succ k =>
                simp only [List.get?_cons_succ] at hk
                obtain ⟨e'', h1, h2⟩ := hlabal k id a hk
                refine ⟨e'', ?_, h2⟩
                show emit_list L exec0
                  (Token.LDL 0 (labelIdStr entry) :: Token.JMP 0 :: toks0.take k) = some e''
                unfold emit_list
                rw [het1]
                unfold emit_list
                rw [het2]
                exact h1
          · intro hna
            have hsum0 : st1.address = (8 : Nat) + sum_sizes toks0 :=
              tokenize_lines_sum lines _ st1 toks0 hrest (by rw [hnorew])
                (fun a hm => hna a (by simp [hm]))
            obtain ⟨hl1, hl2⟩ := emit_list_len _ L exec0 exec hemitF
              hna (by simp [exec0]) (by simp only [exec0, sum_sizes, emit_size]; simp; omega)
            refine ⟨?_, hl2⟩
            rw [hl1]
            simp only [exec0, sum_sizes, emit_size]
            simp
            omega

/-- C1 counterexample: the claim fails as stated.  With `-T -e main`, on
the source `foo: / main: / .short foo` the label `foo` is tokenized at
cursor 8 (after the pending trampoline), then the rewind at `main:`
retroactively removes the trampoline, so in pass 2 the emitter consumes
`foo`'s token at cursor 0 while its pass-1 address is 8 — and `.short foo`
emits the bytes `08 00`. -/
theorem c1_label_rewind_cex :
    tokenize "main" true ["foo:", "main:", ".short foo"]
      = some (⟨"main", false, 2⟩,
        [Token.LABEL (labelIdStr "foo") 8, Token.LABEL (labelIdStr "main") 0,
         Token.SHORT (labelIdStr "foo") true])
    ∧ collect_labels
        [Token.LABEL (labelIdStr "foo") 8, Token.LABEL (labelIdStr "main") 0,
         Token.SHORT (labelIdStr "foo") true] []
        = some [(labelIdStr "foo", 8), (labelIdStr "main", 0)]
    ∧ ¬ labels_aligned [(labelIdStr "foo", 8), (labelIdStr "main", 0)]
        [Token.LABEL (labelIdStr "foo") 8, Token.LABEL (labelIdStr "main") 0,
         Token.SHORT (labelIdStr "foo") true]
    ∧ assembleLines true "main" ["foo:", "main:", ".short foo"] = some [8, 0] := by
  refine ⟨by decide, by decide, ?_, by decide⟩
  intro hal
  obtain ⟨e', he', ha⟩ := hal 0 (labelIdStr "foo") 8 rfl
  have he : e' = exec0 := by
    have : emit_list [(labelIdStr "foo", 8), (labelIdStr "main", 0)] exec0 [] = some e' := he'
    unfold emit_list at this
    injection this with this
    exact this.symm
  rw [he] at ha
  exact absurd ha (by decide)

/-- C1 witness: the two-line source `a: / nop` satisfies every hypothesis
of the amended theorem with concrete outputs. -/
theorem c1_cursor_lockstep_witness :
    tokenize "x" false ["a:", "nop"]
      = some (⟨"x", false, 2⟩, [Token.LABEL 97 0, Token.NOP])
    ∧ collect_labels [Token.LABEL 97 0, Token.NOP] [] = some [(97, 0)]
    ∧ emit_list [(97, 0)] exec0 [Token.LABEL 97 0, Token.NOP] = some ⟨[0, 0], 2⟩
    ∧ (⟨[0, 0], 2⟩ : Executable).address = (⟨"x", false, 2⟩ : JobState).address :=
  ⟨by decide, by decide, by decide,
    (c1_cursor_lockstep_amended ["a:", "nop"] "x" false ⟨"x", false, 2⟩
      [Token.LABEL 97 0, Token.NOP] [(97, 0)] ⟨[0, 0], 2⟩ (by decide) (by decide)
      (by decide) rfl (by decide)).1⟩

/-- C6 counterexample: the claim fails as stated.  With `-T -e main` and
`main:` first, the two-line source `main: / nop` assembles to exactly the
two bytes `00 00` — the binary does not begin with an 8-byte
`ldl r0,<id>; jmp r0` trampoline, and `main`'s code sits at offset 0, not
`0x0008` (its label token records address 0). -/
theorem c6_trampoline_cex :
    assembleLines true "main" ["main:", "nop"] = some [0x00, 0x00]
    ∧ tokenize "main" true ["main:", "nop"]
        = some (⟨"main", false, 2⟩, [Token.LABEL (labelIdStr "main") 0, Token.NOP])
    ∧ ¬ (∃ tail, assembleLines true "main" ["main:", "nop"]
          = some ([0x00, 0x40, 0x81, 0x70, 0x08, 0x40, 0x00, 0x60] ++ tail)) := by
  refine ⟨by decide, by decide, ?_⟩
  rintro ⟨tail, htail⟩
  rw [show assembleLines true "main" ["main:", "nop"] = some [0x00, 0x00] from by decide]
    at htail
  injection htail with htail
  have := congrArg List.length htail
  simp at this

/-- C6 (amended): with `-T -e main`, when `main:` is the first item the
tokenizer rewinds the trampoline away entirely: no trampoline tokens are
prepended, `main`'s label resolves to address 0, and the remaining lines
tokenize exactly as they would with the cursor starting at 0 and no
trampoline.  The emitted binary therefore begins directly with `main`'s
code at offset 0. -/
theorem c6_trampoline_amended (rest : List String) (st : JobState) (toks : List Token)
    (h : tokenize "main" true ("main:" :: rest) = some (st, toks)) :
    st.trampoline = false ∧
    ∃ toks', toks = Token.LABEL (labelIdStr "main") 0 :: toks' ∧
      tokenize_lines ⟨"main", false, 0⟩ rest = some (st, toks') := by
  unfold tokenize at h
  dsimp only at h
  rw [show (if (true = true) then (8 : Nat) else 0) = 8 from rfl] at h
  have hg : gen_token (⟨"main", true, 8⟩ : JobState) "main:"
      = some (⟨"main", false, 0⟩, Token.LABEL (labelIdStr "main") 0) := by decide
  have hstep : tokenize_lines (⟨"main", true, 8⟩ : JobState) ("main:" :: rest)
      = (match tokenize_lines (⟨"main", false, 0⟩ : JobState) rest with
        | none => none
        | some (st2, toks2) =>
          some (st2, Token.LABEL (labelIdStr "main") 0 :: toks2)) := by
    rw [tokenize_lines, hg]
    norm_num
  rw [hstep] at h
  rcases hr : tokenize_lines (⟨"main", false, 0⟩ : JobState) rest with _ | ⟨st2, toks2⟩
  · rw [hr] at h; cases h
  · rw [hr] at h
    have hflag : st2.trampoline = false :=
      (tokenize_lines_state hr).2 rfl
    dsimp only at h
    rw [hflag] at h
    simp only [Bool.false_eq_true, if_false] at h
    injection h with h
    injection h with h1 h2
    subst h1
    subst h2
    exact ⟨hflag, toks2, rfl, rfl⟩

/-- C6 witness: the amended theorem applied to `main: / nop`. -/
theorem c6_trampoline_witness :
    tokenize "main" true ["main:", "nop"]
      = some (⟨"main", false, 2⟩, [Token.LABEL (labelIdStr "main") 0, Token.NOP])
    ∧ ((⟨"main", false, 2⟩ : JobState).trampoline = false ∧
       ∃ toks', [Token.LABEL (labelIdStr "main") 0, Token.NOP]
          = Token.LABEL (labelIdStr "main") 0 :: toks' ∧
         tokenize_lines ⟨"main", false, 0⟩ ["nop"] = some (⟨"main", false, 2⟩, toks')) :=
  ⟨by decide,
    c6_trampoline_amended ["nop"] ⟨"main", false, 2⟩
      [Token.LABEL (labelIdStr "main") 0, Token.NOP] (by decide)⟩

/-- C7 counterexample: the claim fails as stated.  A `Short` token whose
label id is absent from the table does not fall back to truncation — the
emitter exits fatally (`critical!`, here `none`). -/
theorem c7_unresolved_label_cex :
    gen_executable [Token.SHORT 999 true] = none := by decide

/-- C7 (amended): the truncation fallback exists only for `Ldl` tokens —
an `Ldl x,k` whose id is missing from the label table emits using the raw
`u64` id truncated to `u16` (`k % 2^16`) — while a `Short(id, true)` whose
id is missing is a fatal error. -/
theorem c7_unresolved_label_amended
    (L : List (Nat × Nat)) (k x : Nat) (e : Executable)
    (h : lookupL L k = none) :
    emit_token L e (Token.SHORT k true) = none
    ∧ emit_token L e (Token.LDL x k) = some (push_list e
        [0x4000 ||| (x <<< 8) ||| (((k % 65536) &&& 0xFF00) >>> 8),
         0x7081 ||| (x <<< 8),
         0x4000 ||| (x <<< 8) ||| ((k % 65536) &&& 0x00FF)]) := by
  constructor
  · simp only [emit_token, h]
    rfl
  · simp only [emit_token, h]

/-- C7 witness: the amended theorem at an empty label table, id 999,
register 0 and the fresh buffer. -/
theorem c7_unresolved_label_witness :
    lookupL [] 999 = none
    ∧ emit_token [] exec0 (Token.SHORT 999 true) = none
    ∧ emit_token [] exec0 (Token.LDL 0 999) = some (push_list exec0
        [0x4000 ||| (0 <<< 8) ||| (((999 % 65536) &&& 0xFF00) >>> 8),
         0x7081 ||| (0 <<< 8),
         0x4000 ||| (0 <<< 8) ||| ((999 % 65536) &&& 0x00FF)]) :=
  ⟨rfl, (c7_unresolved_label_amended [] 999 0 exec0 rfl).1,
    (c7_unresolved_label_amended [] 999 0 exec0 rfl).2⟩

/-- C2 counterexample: the claim fails as stated.  Assembling the spec's
four-line minimal program is a fatal error, because the `ldi` immediate
goes through `parse_int_from_string` (`str::parse::<u8>()`), which rejects
the `0x`-prefixed hex literal `0xDE`. -/
theorem c2_hex_ldi_fails_cex :
    assemble false "_start"
      "_start:\n  ldi r0, 0xDE\n  shl r0, 8\n  ldi r0, 0xAD\n  jmp r0" = none := by
  decide

/-- C2 (amended): with the immediates written in decimal (`222`/`173`),
the minimal program assembles, and the eight output bytes are
`DE 40 81 70 AD 40 00 60` — not the spec's `DE 40 08 70 AD 40 00 60`:
`shl r0, 8` encodes as `0x7001 | (8 & 0xF) << 4 = 0x7081`, so the second
word's bytes are `81 70`. -/
theorem c2_minimal_program_amended :
    assemble false "_start"
      "_start:\n  ldi r0, 222\n  shl r0, 8\n  ldi r0, 173\n  jmp r0"
      = some [0xDE, 0x40, 0x81, 0x70, 0xAD, 0x40, 0x00, 0x60]
    ∧ assemble false "_start"
      "_start:\n  ldi r0, 222\n  shl r0, 8\n  ldi r0, 173\n  jmp r0"
      ≠ some [0xDE, 0x40, 0x08, 0x70, 0xAD, 0x40, 0x00, 0x60] := by
  constructor
  · decide
  · decide

/-- C9: the claim is right and the code has a slip.  `.addr` parses
`0x`-hex correctly (decimal first on the raw string, hex on the stripped
one), but `.short` strips `0x` *before* trying decimal, so `.short 0x10`
parses as decimal `10` and emits `0A 00` instead of `10 00`; hex works for
`.short` only when a hex letter makes decimal parsing fail (`0xDE` → 222).
The immediate operands of `ldi`/`shr`/`shl`/`test` go through plain
`str::parse` and reject `0x`-hex entirely. -/
theorem c9_integer_notation_bug :
    tokenize "_start" false [".short 0x10"]
      = some (⟨"_start", false, 2⟩, [Token.SHORT 10 false])
    ∧ gen_executable [Token.SHORT 10 false] = some ⟨[0x0A, 0x00], 2⟩
    ∧ tokenize "_start" false [".short 16"]
      = some (⟨"_start", false, 2⟩, [Token.SHORT 16 false])
    ∧ tokenize "_start" false [".short 0xDE"]
      = some (⟨"_start", false, 2⟩, [Token.SHORT 222 false])
    ∧ tokenize "_start" false [".addr 0x10"]
      = some (⟨"_start", false, 16⟩, [Token.ADDR 16])
    ∧ tokenize "_start" false ["ldi r0, 0x10"] = none
    ∧ tokenize "_start" false ["shl r0, 0x8"] = none
    ∧ tokenize "_start" false ["test 0x1"] = none := by
  refine ⟨by decide, by decide, by decide, by decide, by decide, by decide,
    by decide, by decide⟩

/-- C10: in the legacy VM (`src/rscvm/src/lib.rs`), `num_to_ptr` has no
arm for operand `0x00`, yet the `MOV` arm range-checks only `x > 0x0A`
and `y > 0x0A` before `unwrap()`ing — so the well-formed word `0x5000`
(`MOV` with both fields `0x00`, low nibble 0) drives `step()` into a
host-level panic (`none`), and likewise the register forms `0x9000`
(`PUSH`) and `0xA000` (`POP`). -/
theorem c10_mov_field0_panics :
    rscvm_num_to_ptr_read ⟨[0, 0, 0, 0, 0, 0, 0, 0], [0, 0], 0, 0, 0⟩ 0x00 = none
    ∧ ((0x5000 &&& 0x000F : Nat) = 0 ∧ ((0x5000 &&& 0x0F00 : Nat) >>> 8) ≤ 0x0A)
    ∧ rscvm_step ⟨[0x50, 0x00, 0, 0], 4, ⟨[0, 0, 0, 0, 0, 0, 0, 0], [0, 0], 0, 0, 0⟩⟩ = none
    ∧ rscvm_step ⟨[0x90, 0x00, 0, 0], 4, ⟨[0, 0, 0, 0, 0, 0, 0, 0], [0, 0], 2, 0, 0⟩⟩ = none
    ∧ rscvm_step ⟨[0xA0, 0x00, 0, 0], 4, ⟨[0, 0, 0, 0, 0, 0, 0, 0], [0, 0], 0, 0, 0⟩⟩ = none := by
  refine ⟨by decide, ⟨by decide, by decide⟩, by decide, by decide, by decide⟩

theorem lor_shiftLeft (a b k : Nat) : (a ||| b) <<< k = (a <<< k) ||| (b <<< k) := by
  apply Nat.eq_of_testBit_eq
  intro i
  simp only [Nat.testBit_shiftLeft, Nat.testBit_lor]
  cases h : decide (k ≤ i) <;> simp

theorem lor_left_comm (a b c : Nat) : a ||| (b ||| c) = b ||| (a ||| c) := by
  rw [← Nat.or_assoc, Nat.or_comm a b, Nat.or_assoc]

theorem if_getD (l : List Nat) (i : Nat) :
    (if i < l.length then l.getD i 0 else 0) = l.getD i 0 := by
  split
  · rfl
  · rw [List.getD_eq_default]
    omega

theorem getD_drop (l : List Nat) (j i : Nat) :
    (l.drop j).getD i 0 = l.getD (j + i) 0 := by
  rw [List.getD_eq_getD_get?, List.getD_eq_getD_get?, List.get?_drop]

theorem maskAt_drop (bytes : List Nat) (j : Nat) :
    maskAt bytes j = maskAt (bytes.drop j) 0 := by
  simp only [maskAt, show List.range 8 = [0,1,2,3,4,5,6,7] from rfl,
    List.foldl_cons, List.foldl_nil, if_getD]
  simp [getD_drop, Nat.add_comm]

theorem maskAt_eight (b0 b1 b2 b3 b4 b5 b6 b7 : Nat) (rest : List Nat) :
    maskAt (b0 :: b1 :: b2 :: b3 :: b4 :: b5 :: b6 :: b7 :: rest) 0
      = packLE [b0, b1, b2, b3, b4, b5, b6, b7] := by
  simp only [maskAt, packLE, if_getD, show List.range 8 = [0,1,2,3,4,5,6,7] from rfl]
  simp only [List.foldl_cons, List.foldl_nil, List.foldr_cons, List.foldr_nil,
    List.append_nil, List.replicate]
  simp [lor_shiftLeft, ← Nat.shiftLeft_add, Nat.or_assoc, Nat.or_comm, lor_left_comm]

theorem foldl_xor_init (g : Nat → Nat) :
    ∀ (l : List Nat) (a : Nat),
      l.foldl (fun h k => h ^^^ g k) a = a ^^^ l.foldl (fun h k => h ^^^ g k) 0 := by
  intro l
  induction l with
  | nil => intro a; simp
  | cons x l ih =>
    intro a
    rw [List.foldl_cons, List.foldl_cons, ih (a ^^^ g x), ih (0 ^^^ g x)]
    simp [Nat.xor_assoc]

theorem maskAt_small (l : List Nat) (hl : l.length < 8) :
    maskAt l 0 = packLE l := by
  match l, hl with
  | [], _ => rfl
  | [b0], _ =>
    simp only [maskAt, packLE, if_getD, show List.range 8 = [0,1,2,3,4,5,6,7] from rfl]
    simp only [List.foldl_cons, List.foldl_nil, List.foldr_cons, List.foldr_nil,
      List.replicate, List.cons_append, List.nil_append]
    simp [lor_shiftLeft, ← Nat.shiftLeft_add, Nat.or_assoc, Nat.or_comm, lor_left_comm]
  | [b0, b1], _ =>
    simp only [maskAt, packLE, if_getD, show List.range 8 = [0,1,2,3,4,5,6,7] from rfl]
    simp only [List.foldl_cons, List.foldl_nil, List.foldr_cons, List.foldr_nil,
      List.replicate, List.cons_append, List.nil_append]
    simp [lor_shiftLeft, ← Nat.shiftLeft_add, Nat.or_assoc, Nat.or_comm, lor_left_comm]
  | [b0, b1, b2], _ =>
    simp only [maskAt, packLE, if_getD, show List.range 8 = [0,1,2,3,4,5,6,7] from rfl]
    simp only [List.foldl_cons, List.foldl_nil, List.foldr_cons, List.foldr_nil,
      List.replicate, List.cons_append, List.nil_append]
    simp [lor_shiftLeft, ← Nat.shiftLeft_add, Nat.or_assoc, Nat.or_comm, lor_left_comm]
  | [b0, b1, b2, b3], _ =>
    simp only [maskAt, packLE, if_getD, show List.range 8 = [0,1,2,3,4,5,6,7] from rfl]
    simp only [List.foldl_cons, List.foldl_nil, List.foldr_cons, List.foldr_nil,
      List.replicate, List.cons_append, List.nil_append]
    simp [lor_shiftLeft, ← Nat.shiftLeft_add, Nat.or_assoc, Nat.or_comm, lor_left_comm]
  | [b0, b1, b2, b3, b4], _ =>
    simp only [maskAt, packLE, if_getD, show List.range 8 = [0,1,2,3,4,5,6,7] from rfl]
    simp only [List.foldl_cons, List.foldl_nil, List.foldr_cons, List.foldr_nil,
      List.replicate, List.cons_append, List.nil_append]
    simp [lor_shiftLeft, ← Nat.shiftLeft_add, Nat.or_assoc, Nat.or_comm, lor_left_comm]
  | [b0, b1, b2, b3, b4, b5], _ =>
    simp only [maskAt, packLE, if_getD, show List.range 8 = [0,1,2,3,4,5,6,7] from rfl]
    simp only [List.foldl_cons, List.foldl_nil, List.foldr_cons, List.foldr_nil,
      List.replicate, List.cons_append, List.nil_append]
    simp [lor_shiftLeft, ← Nat.shiftLeft_add, Nat.or_assoc, Nat.or_comm, lor_left_comm]
  | [b0, b1, b2, b3, b4, b5, b6], _ =>
    simp only [maskAt, packLE, if_getD, show List.range 8 = [0,1,2,3,4,5,6,7] from rfl]
    simp only [List.foldl_cons, List.foldl_nil, List.foldr_cons, List.foldr_nil,
      List.replicate, List.cons_append, List.nil_append]
    simp [lor_shiftLeft, ← Nat.shiftLeft_add, Nat.or_assoc, Nat.or_comm, lor_left_comm]

theorem calc_eq_spec_aux :
    ∀ (n : Nat) (bytes : List Nat), bytes.length = n →
      calculate_label_id bytes = spec_label_id bytes := by
  intro n
  induction n using Nat.strong_induction_on with
  | _ n ih =>
    intro bytes hlen
    match bytes with
    | [] => rfl
    | b0 :: b1 :: b2 :: b3 :: b4 :: b5 :: b6 :: b7 :: rest =>
      rw [show spec_label_id (b0 :: b1 :: b2 :: b3 :: b4 :: b5 :: b6 :: b7 :: rest)
          = packLE [b0, b1, b2, b3, b4, b5, b6, b7] ^^^ spec_label_id rest from rfl]
      rw [← maskAt_eight b0 b1 b2 b3 b4 b5 b6 b7 rest]
      rw [← ih rest.length (by simp at hlen; omega) rest rfl]
      unfold calculate_label_id
      rw [show (b0 :: b1 :: b2 :: b3 :: b4 :: b5 :: b6 :: b7 :: rest).length
          = rest.length + 8 from by simp]
      rw [show (rest.length + 8 + 7) / 8 = ((rest.length + 7) / 8) + 1 from by omega]
      rw [List.range_succ_eq_map, List.foldl_cons, List.foldl_map]
      have hshift : ∀ k : Nat,
          maskAt (b0 :: b1 :: b2 :: b3 :: b4 :: b5 :: b6 :: b7 :: rest) (8 * Nat.succ k)
            = maskAt rest (8 * k) := by
        intro k
        have hd : List.drop (8 * Nat.succ k)
              (b0 :: b1 :: b2 :: b3 :: b4 :: b5 :: b6 :: b7 :: rest)
            = List.drop (8 * k) rest := by
          rw [show 8 * Nat.succ k = 8 + 8 * k from by omega, ← List.drop_drop]
          rfl
        rw [maskAt_drop, maskAt_drop rest, hd]
      simp only [hshift]
      rw [foldl_xor_init (fun k => maskAt rest (8 * k))]
      simp [Nat.mul_zero, Nat.zero_xor]
    | [b0] =>
      rw [show spec_label_id [b0] = packLE [b0] from rfl, ← maskAt_small [b0] (by simp)]
      simp [calculate_label_id, show List.range 1 = [0] from rfl]
    | [b0, b1] =>
      rw [show spec_label_id [b0, b1] = packLE [b0, b1] from rfl,
        ← maskAt_small [b0, b1] (by simp)]
      simp [calculate_label_id, show List.range 1 = [0] from rfl]
    | [b0, b1, b2] =>
      rw [show spec_label_id [b0, b1, b2] = packLE [b0, b1, b2] from rfl,
        ← maskAt_small [b0, b1, b2] (by simp)]
      simp [calculate_label_id, show List.range 1 = [0] from rfl]
    | [b0, b1, b2, b3] =>
      rw [show spec_label_id [b0, b1, b2, b3] = packLE [b0, b1, b2, b3] from rfl,
        ← maskAt_small [b0, b1, b2, b3] (by simp)]
      simp [calculate_label_id, show List.range 1 = [0] from rfl]
    | [b0, b1, b2, b3, b4] =>
      rw [show spec_label_id [b0, b1, b2, b3, b4] = packLE [b0, b1, b2, b3, b4] from rfl,
        ← maskAt_small [b0, b1, b2, b3, b4] (by simp)]
      simp [calculate_label_id, show List.range 1 = [0] from rfl]
    | [b0, b1, b2, b3, b4, b5] =>
      rw [show spec_label_id [b0, b1, b2, b3, b4, b5]
          = packLE [b0, b1, b2, b3, b4, b5] from rfl,
        ← maskAt_small [b0, b1, b2, b3, b4, b5] (by simp)]
      simp [calculate_label_id, show List.range 1 = [0] from rfl]
    | [b0, b1, b2, b3, b4, b5, b6] =>
      rw [show spec_label_id [b0, b1, b2, b3, b4, b5, b6]
          = packLE [b0, b1, b2, b3, b4, b5, b6] from rfl,
        ← maskAt_small [b0, b1, b2, b3, b4, b5, b6] (by simp)]
      simp [calculate_label_id, show List.range 1 = [0] from rfl]

/-- C3: the label hash is the spec's XOR-fold — for every byte string, the
`calculate_label_id` of `src/sasm/src/lib.rs` equals the spec function
(8-byte groups, zero-padded tail, packed as little-endian 64-bit words,
XOR-folded), the `rscas` variant computes the same value, and hence the
two assembler variants agree on every label string; determinism is
inherent (they are functions). -/
theorem c3_label_hash_agreement :
    (∀ bytes : List Nat,
      calculate_label_id bytes = spec_label_id bytes
      ∧ rscas_calculate_label_id bytes = spec_label_id bytes
      ∧ calculate_label_id bytes = rscas_calculate_label_id bytes)
    ∧ (∀ s : String, labelIdStr s = spec_label_id (strBytes s)) := by
  have h : ∀ bytes : List Nat, calculate_label_id bytes = spec_label_id bytes :=
    fun b => calc_eq_spec_aux b.length b rfl
  have h2 : ∀ bytes : List Nat, rscas_calculate_label_id bytes = calculate_label_id bytes :=
    fun _ => rfl
  exact ⟨fun b => ⟨h b, (h2 b).trans (h b), ((h2 b).symm)⟩, fun s => h _⟩

/-- C4: `jnz x,y` (class `0x6`, sub-opcode 1).  In the spec-modelled VM the
jump is taken exactly when `Ry == 0` (to an even target; an odd target
faults `UNA` instead), otherwise execution falls through; and the real
assembler encodes `Token::JNZ` as the class-6 sub-opcode-1 word
`0x6001 | x<<8 | y<<4`. -/
theorem c4_jnz_direction (vm : SvirtState) (x y rx ry : Nat)
    (hcls : (s_fetch vm) >>> 12 = 0x6) (hsub : (s_fetch vm) &&& 0x3 = 1)
    (hx : x = ((s_fetch vm) >>> 8) &&& 0xF) (hy : y = ((s_fetch vm) >>> 4) &&& 0xF)
    (hx8 : x ≤ 8) (hy7 : y ≤ 7)
    (hrx : rx = s_reg_get vm x) (hry : ry = s_reg_get vm y) :
    (ry = 0 → rx % 2 = 0 → (s_step vm).pc = rx)
    ∧ (ry ≠ 0 → (s_step vm).pc = (vm.pc + 2) % 65536)
    ∧ (∀ (L : List (Nat × Nat)) (e : Executable),
        emit_token L e (Token.JNZ x y) = some
          (e.push_short (0x6001 ||| (x <<< 8) ||| (y <<< 4)))) := by
  subst hx hy hrx hry
  have hstep : s_step vm =
      if s_reg_get vm (((s_fetch vm) >>> 4) &&& 0xF) = 0 then
        (if s_reg_get vm (((s_fetch vm) >>> 8) &&& 0xF) % 2 = 1 then
          { s_raise vm SException.UNA with
            pc := ((s_raise vm SException.UNA).pc + 2) % 65536 }
        else { vm with pc := s_reg_get vm (((s_fetch vm) >>> 8) &&& 0xF) })
      else { vm with pc := (vm.pc + 2) % 65536 } := by
    unfold s_step
    dsimp only
    rw [hcls, hsub]
    norm_num
    intro hcon
    exact absurd (hcon hx8) (by omega)
  refine ⟨?_, ?_, ?_⟩
  · intro h0 heven
    rw [hstep, if_pos h0, if_neg (by omega)]
  · intro h0
    rw [hstep, if_neg h0]
  · intro L e
    have hcond : check_register_range ((s_fetch vm >>> 8) &&& 0xF) 8
        ∧ check_register_range ((s_fetch vm >>> 4) &&& 0xF) 7 :=
      ⟨by simpa [check_register_range] using hx8,
       by simpa [check_register_range] using hy7⟩
    simp only [emit_token, if_pos hcond]
    rfl

/-- C4 witness: the word `0x6021` (`jnz r0, r2`) at PC 0 with `R2 = 0` and
even `R0 = 4` jumps to 4. -/
theorem c4_jnz_direction_witness :
    s_fetch ⟨[0x21, 0x60, 0, 0], 4, [4, 0, 0, 0, 0, 0, 0, 0], 0, 0, 0, 0, 0⟩ >>> 12 = 0x6
    ∧ (s_step ⟨[0x21, 0x60, 0, 0], 4, [4, 0, 0, 0, 0, 0, 0, 0], 0, 0, 0, 0, 0⟩).pc = 4 :=
  ⟨by decide,
    (c4_jnz_direction ⟨[0x21, 0x60, 0, 0], 4, [4, 0, 0, 0, 0, 0, 0, 0], 0, 0, 0, 0, 0⟩
      0 2 4 0 (by decide) (by decide) (by decide) (by decide) (by decide) (by decide)
      (by decide) (by decide)).1 rfl (by decide)⟩

/-- C5: in the spec-modelled VM (the `svirt` core is absent from the
sources), every exception is recorded as an `FG` bit — `IOP → 15`,
`SEG → 14`, `UNA → 13`; raising a flag changes nothing but `FG` and never
halts anything; the interpreter loop unconditionally keeps stepping (every
pacing iteration runs exactly one more `step`); and a fully unrecognized
opcode class (e.g. 9) just sets the `IOP` bit and continues at `PC + 2`. -/
theorem c5_exception_flags :
    (exception_bit SException.IOP = 15 ∧ exception_bit SException.SEG = 14
      ∧ exception_bit SException.UNA = 13)
    ∧ (∀ (vm : SvirtState) (e : SException),
        ((s_raise vm e).fg).testBit (exception_bit e) = true
        ∧ (s_raise vm e).pc = vm.pc ∧ (s_raise vm e).mem = vm.mem
        ∧ (s_raise vm e).r = vm.r ∧ (s_raise vm e).sp = vm.sp)
    ∧ (∀ (n : Nat) (vm : SvirtState), s_run (n + 1) vm = s_run n (s_step vm))
    ∧ (∀ vm : SvirtState, (s_fetch vm) >>> 12 = 9 →
        s_step vm = { s_raise vm SException.IOP with pc := (vm.pc + 2) % 65536 }) := by
  refine ⟨⟨rfl, rfl, rfl⟩, ?_, fun n vm => rfl, ?_⟩
  · intro vm e
    refine ⟨?_, rfl, rfl, rfl, rfl⟩
    simp [s_raise, Nat.testBit_lor, Nat.testBit_shiftLeft]
  · intro vm h
    unfold s_step
    dsimp only
    rw [h]
    norm_num
    rfl

/-- C5 witness: raising `UNA` on the zeroed machine sets exactly bit 13
and running one paced iteration is one step. -/
theorem c5_exception_flags_witness :
    ((s_raise ⟨[], 0, [], 0, 0, 0, 0, 0⟩ SException.UNA).fg).testBit
      (exception_bit SException.UNA) = true
    ∧ s_run 1 ⟨[], 0, [], 0, 0, 0, 0, 0⟩ = s_step ⟨[], 0, [], 0, 0, 0, 0, 0⟩ :=
  ⟨(c5_exception_flags.2.1 ⟨[], 0, [], 0, 0, 0, 0, 0⟩ SException.UNA).1,
    c5_exception_flags.2.2.1 0 ⟨[], 0, [], 0, 0, 0, 0, 0⟩⟩

/-- C8: the register numbering `R0..R7 = 0x00..0x07`, `SP = 0x08`,
`C0 = 0x09`, `C1 = 0x0A` is shared ground truth: the real assembler's
`reg_name_to_num` maps the names to exactly these values, and the
spec-modelled VM register file resolves an operand field `n` to exactly
the register this table assigns to `n` (both for reads and writes). -/
theorem c8_register_numbering (vm : SvirtState) (v : Nat) :
    (reg_name_to_num "sp" = some 0x08 ∧ reg_name_to_num "c0" = some 0x09
      ∧ reg_name_to_num "c1" = some 0x0A
      ∧ reg_name_to_num "r0" = some 0x00 ∧ reg_name_to_num "r1" = some 0x01
      ∧ reg_name_to_num "r2" = some 0x02 ∧ reg_name_to_num "r3" = some 0x03
      ∧ reg_name_to_num "r4" = some 0x04 ∧ reg_name_to_num "r5" = some 0x05
      ∧ reg_name_to_num "r6" = some 0x06 ∧ reg_name_to_num "r7" = some 0x07)
    ∧ (s_reg_get vm 0x08 = vm.sp ∧ s_reg_get vm 0x09 = vm.c0 ∧ s_reg_get vm 0x0A = vm.c1)
    ∧ (∀ i : Nat, i ≤ 7 → s_reg_get vm i = vm.r.getD i 0)
    ∧ ((s_reg_set vm 0x08 v).sp = v ∧ (s_reg_set vm 0x09 v).c0 = v
      ∧ (s_reg_set vm 0x0A v).c1 = v)
    ∧ (∀ i : Nat, i ≤ 7 → (s_reg_set vm i v).r = vm.r.set i v) := by
  refine ⟨⟨by decide, by decide, by decide, by decide, by decide, by decide, by decide,
    by decide, by decide, by decide, by decide⟩, ⟨rfl, rfl, rfl⟩, ?_, ⟨rfl, rfl, rfl⟩, ?_⟩
  · intro i hi
    unfold s_reg_get
    rw [if_pos (by omega)]
  · intro i hi
    unfold s_reg_set
    rw [if_pos (by omega)]

/-- C8 witness: the mapping evaluated on a concrete machine. -/
theorem c8_register_numbering_witness :
    s_reg_get ⟨[], 0, [10, 11, 12, 13, 14, 15, 16, 17], 90, 91, 92, 0, 0⟩ 0x08 = 90
    ∧ s_reg_get ⟨[], 0, [10, 11, 12, 13, 14, 15, 16, 17], 90, 91, 92, 0, 0⟩ 0x03 = 13 :=
  ⟨(c8_register_numbering ⟨[], 0, [10, 11, 12, 13, 14, 15, 16, 17], 90, 91, 92, 0, 0⟩
      0).2.1.1,
    by
      rw [(c8_register_numbering ⟨[], 0, [10, 11, 12, 13, 14, 15, 16, 17], 90, 91, 92, 0, 0⟩
        0).2.2.1 3 (by decide)]
      rfl⟩
